import Mathlib

/-!
Shallow embedding of the fast-path point-get planner
(`planner/core/point_get_plan.go`) of the repository, together with proofs
about the claims of its specification.

Modelling conventions:
* machine integers are `Int`/`Nat` (the file performs no wrapping arithmetic
  itself; the one unsigned reinterpretation, `uint64(p.Handle)`, is modelled
  explicitly in `Datum.getInt64`);
* `types.Datum` values (which live in a package outside the given sources)
  are modelled from the spec as a small closed sum of the literal kinds the
  parser produces; decimal/float literals are exact rationals;
* the two side effects of this file — the write to
  `ctx.GetSessionVars().StmtCtx.Tables` in `newPointGetPlan` and the calls to
  the external privilege-verification collaborator in
  `checkFastPlanPrivilege` — are never read back anywhere in the file, so
  they are threaded as an explicit write-only effect log (`Eff`) next to the
  read-only context instead of as a mutable context;
* a failed Go type assertion (`fp.(*PointGetPlan)`) is a runtime panic and is
  modelled by the explicit result `FastRes.panicRes`.
-/

namespace PointGetSpec

/-- Case-insensitive string as in `parser/model`: original and lowered form. -/
structure CIStr where
  O : String
  L : String
deriving DecidableEq, Repr

instance : Inhabited CIStr := ⟨⟨"", ""⟩⟩

/-- Character-wise lowercase (kernel-computable form of `String.toLower`). -/
def strLower (s : String) : String := ⟨s.data.map Char.toLower⟩

/-- `model.NewCIStr`. -/
def NewCIStr (s : String) : CIStr := ⟨s, strLower s⟩

/-- Conversion error classes of the `types` package that the planner
distinguishes (`types.ErrOverflow`, `types.ErrTruncatedWrongVal`, anything
else). -/
inductive ConvErr where
  | overflow
  | truncated
  | other
deriving DecidableEq, Repr

/-- Modelled from the spec: `types.Datum` (the `types` package is not among
the given sources).  Only the literal kinds produced by the parser for WHERE
constants are modelled: NULL, signed and unsigned integers, exact
decimal/float literals (as rationals) and strings. -/
inductive Datum where
  | null
  | int (i : Int)
  | uint (n : Nat)
  | dec (q : ℚ)
  | str (s : String)
deriving DecidableEq, Repr

instance : Inhabited Datum := ⟨.null⟩

/-- `Datum.IsNull` / `Kind() == KindNull`. -/
def Datum.isNull : Datum → Bool
  | .null => true
  | _ => false

/-- Modelled from the spec: numeric value of a datum, used for the
compare-back step of the numeric handle reconciliation (`CompareDatum`).
Strings compare through their parsed integer value (0 when unparseable). -/
def Datum.toRat : Datum → ℚ
  | .null => 0
  | .int i => (i : ℚ)
  | .uint n => (n : ℚ)
  | .dec q => q
  | .str s => ((s.toInt?.getD 0 : Int) : ℚ)

/-- `Datum.GetInt64`: an unsigned 64-bit value stored in the handle is
reinterpreted as the signed word with the same bits. -/
def Datum.getInt64 : Datum → Int
  | .int i => i
  | .uint n => if n < 2 ^ 63 then (n : Int) else (n : Int) - 2 ^ 64
  | _ => 0

/-- Declared field type of a column.  For the integer types that can act as
a primary-key handle, `lo`/`hi` is the declared value range; `unsigned` is
`mysql.HasUnsignedFlag`, `priKey` is `mysql.HasPriKeyFlag` of the type's
flag word. -/
structure FieldType where
  unsigned : Bool := false
  priKey : Bool := false
  lo : Int := 0
  hi : Int := 0
deriving DecidableEq, Repr

instance : Inhabited FieldType := ⟨{}⟩

/-- Signed 64-bit (`bigint`) field type. -/
def bigintType (pk : Bool) : FieldType :=
  { unsigned := false, priKey := pk, lo := -(2 ^ 63), hi := 2 ^ 63 - 1 }

/-- Signed 32-bit (`int`) field type. -/
def int32Type (pk : Bool) : FieldType :=
  { unsigned := false, priKey := pk, lo := -(2 ^ 31), hi := 2 ^ 31 - 1 }

/-- Unsigned 64-bit (`bigint unsigned`) field type. -/
def ubigintType (pk : Bool) : FieldType :=
  { unsigned := true, priKey := pk, lo := 0, hi := 2 ^ 64 - 1 }

/-- Rounding of a rational to the nearest integer (halves up), as the
numeric conversion needs it; kernel-computable. -/
def ratRound (q : ℚ) : Int := Int.fdiv (2 * q.num + (q.den : Int)) (2 * (q.den : Int))

/-- Clamp an integer into the declared range of `ft`. -/
def FieldType.clamp (ft : FieldType) (i : Int) : Int :=
  if i < ft.lo then ft.lo else if i > ft.hi then ft.hi else i

/-- Build the datum of an in-range integer of type `ft`. -/
def FieldType.mkIntDatum (ft : FieldType) (i : Int) : Datum :=
  if ft.unsigned then .uint i.toNat else .int i

/-- Modelled from the spec (§4.2 "numeric handle reconciliation";
`Datum.ConvertTo` lives in the `types` package, outside the given sources):
conversion of a constraint value to an integer primary-key type has three
outcomes — out-of-range values overflow (saturating), fractional or
non-numeric values truncate to a rounded/parsed value with
`ErrTruncatedWrongVal`, exact values convert without error. -/
def Datum.convertTo (d : Datum) (ft : FieldType) : Datum × Option ConvErr :=
  match d with
  | .null => (.null, none)
  | .int i =>
      if i < ft.lo ∨ i > ft.hi then (ft.mkIntDatum (ft.clamp i), some .overflow)
      else (ft.mkIntDatum i, none)
  | .uint n =>
      if (n : Int) < ft.lo ∨ (n : Int) > ft.hi then
        (ft.mkIntDatum (ft.clamp (n : Int)), some .overflow)
      else (ft.mkIntDatum (n : Int), none)
  | .dec q =>
      let r : Int := ratRound q
      if r < ft.lo ∨ r > ft.hi then (ft.mkIntDatum (ft.clamp r), some .overflow)
      else if q.den = 1 then (ft.mkIntDatum r, none)
      else (ft.mkIntDatum r, some .truncated)
  | .str s =>
      match s.toInt? with
      | some i =>
          if i < ft.lo ∨ i > ft.hi then (ft.mkIntDatum (ft.clamp i), some .overflow)
          else (ft.mkIntDatum i, none)
      | none => (ft.mkIntDatum 0, some .truncated)

/-- Modelled from the spec: `Datum.CompareDatum` on the kinds above —
three-way numeric comparison (the planner only tests the result against 0). -/
def compareDatum (a b : Datum) : Int :=
  if a.toRat < b.toRat then -1 else if a.toRat = b.toRat then 0 else 1

/-- Schema-migration state of a column or index (`model.SchemaState`). -/
inductive SchemaState where
  | statePublic
  | stateWriteOnly
  | stateDeleteOnly
deriving DecidableEq, Repr

/-- `model.ColumnInfo` (the fields read by this file). -/
structure ColumnInfo where
  name : CIStr
  offset : Nat := 0
  id : Int := 0
  fieldType : FieldType := {}
  state : SchemaState := .statePublic
  generated : Bool := false
deriving DecidableEq, Repr

instance : Inhabited ColumnInfo := ⟨⟨default, 0, 0, default, .statePublic, false⟩⟩

/-- `model.IndexColumn`: column name and prefix length
(`types.UnspecifiedLength = -1` meaning the whole value). -/
structure IndexColumn where
  name : CIStr
  length : Int := -1
deriving DecidableEq, Repr

/-- `model.IndexInfo` (the fields read by this file). -/
structure IndexInfo where
  name : CIStr
  columns : List IndexColumn
  unique : Bool := false
  state : SchemaState := .statePublic
deriving DecidableEq, Repr

/-- `IndexInfo.HasPrefixIndex`: some column carries a length restriction. -/
def IndexInfo.hasPrefixIndex (idx : IndexInfo) : Bool :=
  idx.columns.any fun c => c.length ≠ -1

/-- `model.TableInfo` (the fields read by this file); `partition` is the
presence of partitioning metadata (`GetPartitionInfo() != nil`). -/
structure TableInfo where
  id : Int := 0
  name : CIStr
  columns : List ColumnInfo := []
  indices : List IndexInfo := []
  pkIsHandle : Bool := false
  partition : Bool := false
deriving DecidableEq, Repr

instance : Inhabited TableInfo := ⟨{ name := default }⟩

/-- `ast.ColumnName`: optional table qualifier plus the column name. -/
structure ColumnName where
  table : CIStr := default
  name : CIStr
deriving DecidableEq, Repr

/-- Binary operators distinguished by the predicate extractor
(`opcode.EQ`, `opcode.LogicAnd`, anything else). -/
inductive BinOpKind where
  | eq
  | logicAnd
  | otherOp
deriving DecidableEq, Repr

/-- Expression AST (`ast.ExprNode`), restricted to the node kinds this file
inspects; every other node kind is `otherExpr` (all type assertions on it
fail). -/
inductive ExprNode where
  | binOp (op : BinOpKind) (l r : ExprNode)
  | colName (cn : ColumnName)
  | value (d : Datum)
  | param (id : Nat) (d : Datum)
  | patternIn (expr : ExprNode) (isNot : Bool) (list : List ExprNode)
  | row (values : List ExprNode)
  | otherExpr

/-- `ast.WildCardField`: the optional table qualifier of a `*` field. -/
structure WildCard where
  table : CIStr := default
deriving DecidableEq, Repr

/-- `ast.SelectField`: either a wildcard or an expression with an alias. -/
structure SelectField where
  wildcard : Option WildCard := none
  expr : Option ExprNode := none
  asName : CIStr := default

/-- `ast.Limit` with already-evaluated count and offset (the evaluation
helper `extractLimitCountOffset` is not among the given sources and is
modelled from the spec below). -/
structure LimitClause where
  count : Nat
  offset : Nat
deriving DecidableEq, Repr

/-- `ast.SelectLockType`. -/
inductive SelectLockType where
  | selectLockNone
  | selectLockForUpdate
  | selectLockInShareMode
deriving DecidableEq, Repr

/-- `ast.TableName` as left by the preprocessor: schema qualifier, name and
the resolved table metadata (`nil` when unresolved). -/
structure TableName where
  schema : CIStr := default
  name : CIStr
  tableInfo : Option TableInfo := none
deriving DecidableEq, Repr

/-- The source of an `ast.TableSource`: a table name or any other result-set
node (subquery, …). -/
inductive TableSourceNode where
  | tblName (t : TableName)
  | otherSrc
deriving DecidableEq, Repr

/-- `ast.TableSource`. -/
structure TableSource where
  source : TableSourceNode
  asName : CIStr := default
deriving DecidableEq, Repr

/-- A result-set node on the left/right of a join: a table source or any
other node. -/
inductive RSNode where
  | tblSource (ts : TableSource)
  | otherRS
deriving DecidableEq, Repr

/-- `ast.Join` as read by `getSingleTableNameAndAlias`: the left node and
whether a right node is present. -/
structure JoinNode where
  left : Option RSNode := none
  right : Bool := false
deriving DecidableEq, Repr

/-- `ast.TableRefsClause`. -/
structure TableRefsClause where
  tableRefs : Option JoinNode := none
deriving DecidableEq, Repr

/-- `ast.SelectStmt`, restricted to the fields this file reads.  For the
clauses the file only tests for presence (ORDER BY, GROUP BY) a Bool
records that presence; `windowSpecs` is `len(WindowSpecs)`. -/
structure SelectStmt where
  distinct : Bool := false
  fromClause : Option TableRefsClause := none
  whereClause : Option ExprNode := none
  fields : List SelectField := []
  groupBy : Bool := false
  having : Bool := false
  windowSpecs : Nat := 0
  orderBy : Bool := false
  limit : Option LimitClause := none
  lockTp : SelectLockType := .selectLockNone

/-- `ast.Assignment` of an UPDATE statement. -/
structure AstAssignment where
  column : ColumnName
  expr : ExprNode

/-- `ast.UpdateStmt`, restricted to the fields this file reads. -/
structure UpdateStmt where
  tableRefs : Option TableRefsClause := none
  whereClause : Option ExprNode := none
  order : Bool := false
  limit : Option LimitClause := none
  list : List AstAssignment := []

/-- `ast.DeleteStmt`, restricted to the fields this file reads. -/
structure DeleteStmt where
  isMultiTable : Bool := false
  tableRefs : Option TableRefsClause := none
  whereClause : Option ExprNode := none
  order : Bool := false
  limit : Option LimitClause := none

/-- The `ast.Node` kinds `TryFastPlan` switches on. -/
inductive AstNode where
  | selectN (s : SelectStmt)
  | updateN (u : UpdateStmt)
  | deleteN (d : DeleteStmt)
  | otherNode

/-- `nameValuePair`: an extracted `column = constant` constraint.  `param`
is the identity of the originating parameter marker, when there was one. -/
structure NVPair where
  colName : String := ""
  value : Datum := .null
  param : Option Nat := none
deriving DecidableEq, Repr

instance : Inhabited NVPair := ⟨{}⟩

/-- `expression.Column` (the fields this file fills in
`colInfoToColumn`). -/
structure Column where
  colName : CIStr
  origTblName : CIStr
  dbName : CIStr
  tblName : CIStr
  retType : FieldType
  id : Int
  uniqueID : Int
  index : Nat
deriving DecidableEq, Repr

instance : Inhabited Column :=
  ⟨⟨default, default, default, default, default, 0, 0, 0⟩⟩

/-- `expression.Schema`: ordered column descriptors. -/
structure Schema where
  columns : List Column
deriving DecidableEq, Repr

instance : Inhabited Schema := ⟨⟨[]⟩⟩

/-- `Schema.Len`. -/
def Schema.len (s : Schema) : Nat := s.columns.length

/-- `Schema.Append`. -/
def Schema.append (s : Schema) (c : Column) : Schema := ⟨s.columns ++ [c]⟩

/-- `stmtctx.TableEntry`. -/
structure TableEntry where
  db : String
  table : String
deriving DecidableEq, Repr

/-- The privilege kinds requested by this file
(`mysql.SelectPriv`, `mysql.UpdatePriv`, `mysql.DeletePriv`). -/
inductive PrivType where
  | select
  | update
  | delete
deriving DecidableEq, Repr

/-- One call to the external privilege-verification collaborator
(`privilege.Manager.RequestVerification`), recorded with its arguments. -/
structure PrivCall where
  roles : List String
  db : String
  table : String
  priv : PrivType
deriving DecidableEq, Repr

/-- Session variables read by this file (`sessionctx`): current database,
autocommit flag, open-transaction flag, pessimistic transaction mode,
active roles, and the statement context's table list (the single piece of
session-scoped state this file writes). -/
structure SessionVars where
  currentDB : String := ""
  autocommit : Bool := true
  inTxn : Bool := false
  txnPessimistic : Bool := false
  activeRoles : List String := []
  stmtCtxTables : List TableEntry := []
deriving DecidableEq, Repr

/-- The planner's context: session variables plus the (optional)
privilege-verification oracle; `privilege.GetPrivilegeManager` returning
`nil` is `privManager = none`. -/
structure Ctx where
  sessVars : SessionVars := {}
  privManager : Option (List String → String → String → PrivType → Bool) := none

/-- The write effects planning can perform: the (last) write to
`StmtCtx.Tables` and the sequence of privilege-verification calls.  Neither
is read back anywhere in this file, which is why they can be logged instead
of threaded through a mutable context. -/
structure Eff where
  tables : Option (List TableEntry) := none
  privCalls : List PrivCall := []
deriving DecidableEq, Repr

/-- The empty effect. -/
def Eff.empty : Eff := {}

/-- Sequencing of effects: a later `StmtCtx.Tables` write wins; call logs
concatenate. -/
def Eff.seq (a b : Eff) : Eff :=
  { tables := match b.tables with | some t => some t | none => a.tables,
    privCalls := a.privCalls ++ b.privCalls }

/-- Apply the logged effects to the session variables (what the session
looks like after planning). -/
def SessionVars.applyEff (sv : SessionVars) (e : Eff) : SessionVars :=
  { sv with stmtCtxTables := e.tables.getD sv.stmtCtxTables }

/-- `getNameValuePairs`: extract `column = constant/paramMarker` conditions
from an expression as name/value pairs (`none` models the Go `nil` result). -/
def getNameValuePairs (nvPairs : List NVPair) (tblName : CIStr) :
    ExprNode → Option (List NVPair)
  | .binOp .logicAnd l r =>
      match getNameValuePairs nvPairs tblName l with
      | none => none
      | some nv1 =>
          match getNameValuePairs nv1 tblName r with
          | none => none
          | some nv2 => some nv2
  | .binOp .eq l r =>
      let extracted : Option (ColumnName × Datum × Option Nat) :=
        match l with
        | .colName cn =>
            match r with
            | .value d => some (cn, d, none)
            | .param pid d => some (cn, d, some pid)
            | _ => some (cn, .null, none)
        | _ =>
            match r with
            | .colName cn =>
                match l with
                | .value d => some (cn, d, none)
                | .param pid d => some (cn, d, some pid)
                | _ => some (cn, .null, none)
            | _ => none
      match extracted with
      | none => none
      | some (cn, d, par) =>
          if d.isNull then none
          else if cn.table.L ≠ "" ∧ cn.table.L ≠ tblName.L then none
          else some (nvPairs ++ [{ colName := cn.name.L, value := d, param := par }])
  | _ => none

/-- `findInPairs`: index of the first pair with the given column name
(Go returns `-1`, modelled as `none`). -/
def findInPairs (colName : String) : List NVPair → Option Nat
  | [] => none
  | p :: ps =>
      if p.colName = colName then some 0 else (findInPairs colName ps).map (· + 1)

/-- The column-scanning loop of `findPKHandle`: the first column carrying
the primary-key flag decides the result. -/
def findPKHandleLoop (pairs : List NVPair) : List ColumnInfo → NVPair × Option FieldType
  | [] => ({}, none)
  | col :: rest =>
      if col.fieldType.priKey then
        match findInPairs col.name.L pairs with
        | none => ({}, none)
        | some i => ((pairs.get? i).getD default, some col.fieldType)
      else findPKHandleLoop pairs rest

/-- `findPKHandle`. -/
def findPKHandle (tblInfo : TableInfo) (pairs : List NVPair) : NVPair × Option FieldType :=
  if ¬ tblInfo.pkIsHandle then ({}, none)
  else findPKHandleLoop pairs tblInfo.columns

/-- `colInfoToColumn`. -/
def colInfoToColumn (db origTblName tblName asName : CIStr) (col : ColumnInfo)
    (idx : Nat) : Column :=
  { colName := asName, origTblName := origTblName, dbName := db, tblName := tblName,
    retType := col.fieldType, id := col.id, uniqueID := (col.offset : Int), index := idx }

/-- `findCol`. -/
def findCol (tbl : TableInfo) (colName : ColumnName) : Option ColumnInfo :=
  tbl.columns.find? fun col => col.name.L = colName.name.L

/-- The wildcard / implicit-projection expansion of `buildSchemaFromFields`:
append every table column, numbering from the current accumulator length. -/
def appendTableCols (dbName : CIStr) (tbl : TableInfo) (tblName : CIStr)
    (acc : List Column) : List Column :=
  tbl.columns.foldl
    (fun a col => a ++ [colInfoToColumn dbName tbl.name tblName col.name col a.length]) acc

/-- The field-list loop of `buildSchemaFromFields`. -/
def buildFieldsCols (dbName : CIStr) (tbl : TableInfo) (tblName : CIStr) :
    List SelectField → List Column → Option (List Column)
  | [], acc => some acc
  | field :: fs, acc =>
      match field.wildcard with
      | some wc =>
          if wc.table.L ≠ "" ∧ wc.table.L ≠ tblName.L then none
          else buildFieldsCols dbName tbl tblName fs (appendTableCols dbName tbl tblName acc)
      | none =>
          match field.expr with
          | some (.colName cn) =>
              if cn.table.L ≠ "" ∧ cn.table.L ≠ tblName.L then none
              else
                match findCol tbl cn with
                | none => none
                | some col =>
                    let asName := if field.asName.L ≠ "" then field.asName else col.name
                    buildFieldsCols dbName tbl tblName fs
                      (acc ++ [colInfoToColumn dbName tbl.name tblName asName col acc.length])
          | _ => none

/-- `buildSchemaFromFields`. -/
def buildSchemaFromFields (ctx : Ctx) (dbName0 : CIStr) (tbl : TableInfo)
    (tblName : CIStr) (fields : List SelectField) : Option Schema :=
  let dbName := if dbName0.L = "" then NewCIStr ctx.sessVars.currentDB else dbName0
  if fields.length > 0 then
    (buildFieldsCols dbName tbl tblName fields []).map Schema.mk
  else
    some ⟨appendTableCols dbName tbl tblName []⟩

/-- `getSingleTableNameAndAlias`. -/
def getSingleTableNameAndAlias (tableRefs : Option TableRefsClause) :
    Option TableName × CIStr :=
  match tableRefs with
  | none => (none, default)
  | some trc =>
      match trc.tableRefs with
      | none => (none, default)
      | some j =>
          if j.right then (none, default)
          else
            match j.left with
            | some (.tblSource tblSrc) =>
                match tblSrc.source with
                | .tblName tn =>
                    let tblAlias := if tblSrc.asName.L = "" then tn.name else tblSrc.asName
                    (some tn, tblAlias)
                | _ => (none, default)
            | _ => (none, default)

/-- Modelled from the spec: `extractLimitCountOffset` (defined elsewhere in
the planner package, outside the given sources) — evaluate the LIMIT
clause's count and offset; literal clauses never error. -/
def extractLimitCountOffset (l : LimitClause) : Nat × Nat := (l.count, l.offset)

/-- The LIMIT disqualification of `tryPointGetPlan`: a present LIMIT whose
count is 0 or whose offset is positive. -/
def limitDisqualifies : Option LimitClause → Bool
  | none => false
  | some l =>
      let (cnt, off) := extractLimitCountOffset l
      decide (cnt = 0 ∨ 0 < off)

/-- The per-index-column collection loop of `getIndexValues`: values and
parameter references in the index's declared column order. -/
def collectIdxVals (pairs : List NVPair) :
    List IndexColumn → Option (List Datum × List (Option Nat))
  | [] => some ([], [])
  | idxCol :: rest =>
      match findInPairs idxCol.name.L pairs with
      | none => none
      | some i =>
          match collectIdxVals pairs rest with
          | none => none
          | some (vs, ps) =>
              let pr := (pairs.get? i).getD default
              some (pr.value :: vs, pr.param :: ps)

/-- `getIndexValues`. -/
def getIndexValues (idxInfo : IndexInfo) (pairs : List NVPair) :
    Option (List Datum × List (Option Nat)) :=
  if idxInfo.columns.length ≠ pairs.length then none
  else if idxInfo.hasPrefixIndex then none
  else
    match collectIdxVals pairs idxInfo.columns with
    | none => none
    | some (vs, ps) => if vs.length > 0 then some (vs, ps) else none

/-- `PointGetPlan` (the semantic fields; the engine's `basePlan`/statistics
boilerplate carries no information relevant to the planner's decisions). -/
structure PointGetPlan where
  schema : Schema
  dbName : CIStr
  tblInfo : TableInfo
  indexInfo : Option IndexInfo := none
  handle : Int := 0
  handleParam : Option Nat := none
  indexValues : List Datum := []
  indexValueParams : List (Option Nat) := []
  unsignedHandle : Bool := false
  isTableDual : Bool := false
  lock : Bool := false
  isForUpdate : Bool := false
deriving DecidableEq, Repr

instance : Inhabited PointGetPlan :=
  ⟨{ schema := default, dbName := default, tblInfo := default }⟩

/-- `newPointGetPlan`: builds the fresh plan and performs this file's one
write to session state — `StmtCtx.Tables = [{DB: CurrentDB, Table: tbl.Name.L}]`. -/
def newPointGetPlan (ctx : Ctx) (schema : Schema) (dbName : CIStr)
    (tbl : TableInfo) : PointGetPlan × Eff :=
  ({ schema := schema, dbName := dbName, tblInfo := tbl },
   { tables := some [⟨ctx.sessVars.currentDB, tbl.name.L⟩], privCalls := [] })

/-- The per-privilege-kind loop of `checkFastPlanPrivilege`: one
`RequestVerification` call per kind, stopping at the first denial. -/
def requestVerificationLoop (pm : List String → String → String → PrivType → Bool)
    (roles : List String) (db tblL : String) : List PrivType → Bool × List PrivCall
  | [] => (true, [])
  | t :: ts =>
      let call : PrivCall := ⟨roles, db, tblL, t⟩
      if pm roles db tblL t then
        let rec2 := requestVerificationLoop pm roles db tblL ts
        (rec2.1, call :: rec2.2)
      else (false, [call])

/-- `checkFastPlanPrivilege` (`true` = no error).  Note that the database
name passed to the collaborator is the session's `CurrentDB`, not the
statement's schema qualifier. -/
def checkFastPlanPrivilege (ctx : Ctx) (fastPlan : PointGetPlan)
    (checkTypes : List PrivType) : Bool × Eff :=
  match ctx.privManager with
  | none => (true, Eff.empty)
  | some pm =>
      let dbName := ctx.sessVars.currentDB
      let res := requestVerificationLoop pm ctx.sessVars.activeRoles dbName
                   fastPlan.tblInfo.name.L checkTypes
      (res.1, { tables := none, privCalls := res.2 })

/-- The unique-index scan loop of `tryPointGetPlan` over `tbl.Indices`. -/
def indexLoop (ctx : Ctx) (selStmt : SelectStmt) (tblName : TableName)
    (tblAlias dbName : CIStr) (tbl : TableInfo) (pairs : List NVPair) :
    List IndexInfo → Option PointGetPlan × Eff
  | [] => (none, Eff.empty)
  | idxInfo :: rest =>
      if ¬ idxInfo.unique then
        indexLoop ctx selStmt tblName tblAlias dbName tbl pairs rest
      else if idxInfo.state ≠ .statePublic then
        indexLoop ctx selStmt tblName tblAlias dbName tbl pairs rest
      else
        match getIndexValues idxInfo pairs with
        | none => indexLoop ctx selStmt tblName tblAlias dbName tbl pairs rest
        | some (idxValues, idxValueParams) =>
            match buildSchemaFromFields ctx tblName.schema tbl tblAlias selStmt.fields with
            | none => (none, Eff.empty)
            | some schema =>
                let pe := newPointGetPlan ctx schema dbName tbl
                (some { pe.1 with indexInfo := some idxInfo, indexValues := idxValues,
                                  indexValueParams := idxValueParams }, pe.2)

/-- `tryPointGetPlan`.  (The `CompareDatum` error branch of the source
cannot fire in the model, where comparison is total.) -/
def tryPointGetPlan (ctx : Ctx) (selStmt : SelectStmt) : Option PointGetPlan × Eff :=
  if selStmt.having then (none, Eff.empty)
  else if limitDisqualifies selStmt.limit then (none, Eff.empty)
  else
    match getSingleTableNameAndAlias selStmt.fromClause with
    | (none, _) => (none, Eff.empty)
    | (some tblName, tblAlias) =>
        match tblName.tableInfo with
        | none => (none, Eff.empty)
        | some tbl =>
            let dbName := if tblName.schema.L = "" then NewCIStr ctx.sessVars.currentDB
                          else tblName.schema
            if tbl.partition then (none, Eff.empty)
            else if tbl.columns.any
                (fun col => col.generated || decide (col.state ≠ SchemaState.statePublic)) then
              (none, Eff.empty)
            else
              match selStmt.whereClause with
              | none => (none, Eff.empty)
              | some whereExpr =>
                  match getNameValuePairs [] tblAlias whereExpr with
                  | none => (none, Eff.empty)
                  | some pairs =>
                      let hp := findPKHandle tbl pairs
                      if hp.1.value.isNull = false ∧ pairs.length = 1 then
                        match buildSchemaFromFields ctx tblName.schema tbl tblAlias
                            selStmt.fields with
                        | none => (none, Eff.empty)
                        | some schema =>
                            let fieldType := hp.2.getD default
                            let pe := newPointGetPlan ctx schema dbName tbl
                            let conv := hp.1.value.convertTo fieldType
                            match conv.2 with
                            | some .overflow => (some { pe.1 with isTableDual := true }, pe.2)
                            | some .other => (none, pe.2)
                            | _ =>
                                if compareDatum conv.1 hp.1.value ≠ 0 then
                                  (some { pe.1 with isTableDual := true }, pe.2)
                                else
                                  (some { pe.1 with handle := conv.1.getInt64,
                                                    unsignedHandle := fieldType.unsigned,
                                                    handleParam := hp.1.param }, pe.2)
                      else
                        indexLoop ctx selStmt tblName tblAlias dbName tbl pairs tbl.indices

/-- `model.ExtraHandleName`. -/
def extraHandleName : CIStr := NewCIStr "_tidb_rowid"

/-- `model.NewExtraHandleColInfo`: the synthetic row-identity column. -/
def newExtraHandleColInfo : ColumnInfo :=
  { name := extraHandleName, id := -1,
    fieldType := { priKey := true, lo := -(2 ^ 63), hi := 2 ^ 63 - 1 } }

/-- The column scan of `findHandleCol`: the schema column at the position of
the last table column carrying the primary-key flag (the source indexes the
schema with the table-column position; an out-of-range index would panic in
Go and is defaulted here — unreachable for the full-table schemas this is
called on). -/
def findHandleColLoop (sch : Schema) (pkIsHandle : Bool) :
    List ColumnInfo → Nat → Option Column → Option Column
  | [], _, acc => acc
  | col :: rest, i, acc =>
      let acc2 := if col.fieldType.priKey && pkIsHandle then
                    some ((sch.columns.get? i).getD default)
                  else acc
      findHandleColLoop sch pkIsHandle rest (i + 1) acc2

/-- The `handleCol` value computed at the head of `findHandleCol`. -/
def findHandleColScanned (p : PointGetPlan) : Option Column :=
  if p.tblInfo.pkIsHandle then
    findHandleColLoop p.schema p.tblInfo.pkIsHandle p.tblInfo.columns 0 none
  else none

/-- `findHandleCol`: resolve the handle column, appending the synthetic
extra-handle column to the plan's schema when none is present. -/
def findHandleCol (p : PointGetPlan) : Column × PointGetPlan :=
  match findHandleColScanned p with
  | some c => (c, p)
  | none =>
      let oneCol := (p.schema.columns.get? 0).getD default
      let hc := colInfoToColumn oneCol.dbName oneCol.origTblName oneCol.tblName
                  extraHandleName newExtraHandleColInfo p.schema.len
      (hc, { p with schema := p.schema.append hc })

/-- Rewritten scalar expressions (`expression.Expression`), modelled from
the spec as far as `buildOrderedList` needs them: constants, schema column
references, and the cast wrapper placed around every assignment source. -/
inductive RTExpr where
  | constE (d : Datum)
  | colE (idx : Nat)
  | castE (e : RTExpr) (ft : FieldType)
deriving DecidableEq, Repr

/-- Modelled from the spec: `expression.Schema.FindColumn` — the unique
schema column matching the (possibly table-qualified) name; outer `none`
is the ambiguity error, `some none` is "no such column". -/
def schemaFindColumn (s : Schema) (cn : ColumnName) : Option (Option Column) :=
  let found := s.columns.filter fun col =>
    (decide (cn.table.L = "") || decide (cn.table.L = col.tblName.L)) &&
      decide (cn.name.L = col.colName.L)
  match found with
  | [] => some none
  | [c] => some (some c)
  | _ => none

/-- Modelled from the spec: `expression.RewriteSimpleExprWithSchema` —
re-resolve an assignment source expression against the lookup plan's
schema; any reference that does not resolve fails the rewrite. -/
def rewriteSimpleExprWithSchema (sch : Schema) : ExprNode → Option RTExpr
  | .value d => some (.constE d)
  | .param _ d => some (.constE d)
  | .colName cn =>
      match schemaFindColumn sch cn with
      | some (some col) => some (.colE col.index)
      | _ => none
  | _ => none

/-- `expression.Assignment`. -/
structure Assignment where
  col : Column
  expr : RTExpr
deriving DecidableEq, Repr

/-- `buildOrderedList`. -/
def buildOrderedList (ctx : Ctx) (fastSelect : PointGetPlan) :
    List AstAssignment → Option (List Assignment)
  | [] => some []
  | assign :: rest =>
      match schemaFindColumn fastSelect.schema assign.column with
      | none => none
      | some none => none
      | some (some col) =>
          match rewriteSimpleExprWithSchema fastSelect.schema assign.expr with
          | none => none
          | some expr0 =>
              match buildOrderedList ctx fastSelect rest with
              | none => none
              | some tail =>
                  some ({ col := col, expr := RTExpr.castE expr0 col.retType } :: tail)

/-- `TblColPosInfo`. -/
structure TblColPosInfo where
  tblID : Int
  startPos : Nat
  endPos : Nat
  handleOrdinal : Nat
deriving DecidableEq, Repr

/-- The `Update` mutation plan (the fields this file fills). -/
structure UpdatePlan where
  selectPlan : PointGetPlan
  orderedList : List Assignment
  tblColPosInfos : List TblColPosInfo
deriving DecidableEq, Repr

/-- The `Delete` mutation plan (the fields this file fills). -/
structure DeletePlan where
  selectPlan : PointGetPlan
  tblColPosInfos : List TblColPosInfo
deriving DecidableEq, Repr

/-- The plan kinds `TryFastPlan` can produce.  `tableDual` records whether
`SetSchema` was called on it (the SELECT path sets the point plan's schema;
the UPDATE/DELETE paths leave it unset). -/
inductive Plan where
  | pointGet (p : PointGetPlan)
  | tableDual (schema : Option Schema)
  | unionAll (isPointGetUnion : Bool) (schema : Schema) (children : List PointGetPlan)
      (chReqProps : List Nat)
  | updateP (u : UpdatePlan)
  | deleteP (d : DeletePlan)
deriving DecidableEq, Repr

/-- Result of `TryFastPlan`: a plan, the `nil` non-result, or a runtime
panic (a failed single-value Go type assertion). -/
inductive FastRes where
  | planRes (p : Plan)
  | nilRes
  | panicRes
deriving DecidableEq, Repr

/-- Result of the batch candidate loops: the collected children and their
expected-count hints, the `nil` failure, or a propagated panic. -/
inductive LoopRes where
  | okL (children : List PointGetPlan) (chReqProps : List Nat)
  | failedL
  | panicL
deriving DecidableEq, Repr

/-- `tryUpdatePointPlan`. -/
def tryUpdatePointPlan (ctx : Ctx) (updateStmt : UpdateStmt) : Option Plan × Eff :=
  let selStmt : SelectStmt :=
    { fields := [], fromClause := updateStmt.tableRefs,
      whereClause := updateStmt.whereClause, orderBy := updateStmt.order,
      limit := updateStmt.limit }
  match tryPointGetPlan ctx selStmt with
  | (none, e1) => (none, e1)
  | (some fastSelect, e1) =>
      let chk := checkFastPlanPrivilege ctx fastSelect [.select, .update]
      let eff := e1.seq chk.2
      if ¬ chk.1 then (none, eff)
      else if fastSelect.isTableDual then (some (.tableDual none), eff)
      else
        let fastSelect1 := if ctx.sessVars.txnPessimistic then { fastSelect with lock := true }
                           else fastSelect
        match buildOrderedList ctx fastSelect1 updateStmt.list with
        | none => (none, eff)
        | some orderedList =>
            let hc := findHandleCol fastSelect1
            (some (.updateP
              { selectPlan := hc.2, orderedList := orderedList,
                tblColPosInfos := [{ tblID := hc.2.tblInfo.id, startPos := 0,
                                     endPos := hc.2.schema.len,
                                     handleOrdinal := hc.1.index }] }), eff)

/-- `tryDeletePointPlan`. -/
def tryDeletePointPlan (ctx : Ctx) (delStmt : DeleteStmt) : Option Plan × Eff :=
  if delStmt.isMultiTable then (none, Eff.empty)
  else
    let selStmt : SelectStmt :=
      { fields := [], fromClause := delStmt.tableRefs,
        whereClause := delStmt.whereClause, orderBy := delStmt.order,
        limit := delStmt.limit }
    match tryPointGetPlan ctx selStmt with
    | (none, e1) => (none, e1)
    | (some fastSelect, e1) =>
        let chk := checkFastPlanPrivilege ctx fastSelect [.select, .delete]
        let eff := e1.seq chk.2
        if ¬ chk.1 then (none, eff)
        else if fastSelect.isTableDual then (some (.tableDual none), eff)
        else
          let fastSelect1 := if ctx.sessVars.txnPessimistic then { fastSelect with lock := true }
                             else fastSelect
          let hc := findHandleCol fastSelect1
          (some (.deleteP
            { selectPlan := hc.2,
              tblColPosInfos := [{ tblID := hc.2.tblInfo.id, startPos := 0,
                                   endPos := hc.2.schema.len,
                                   handleOrdinal := hc.1.index }] }), eff)

/-- Termination measure component: is the WHERE clause a top-level IN
pattern (only then does the batch path rewrite and recurse)? -/
def whereMeasure : Option ExprNode → Nat
  | some (.patternIn _ _ _) => 1
  | _ => 0

/-- Termination measure of `TryFastPlan` on a node. -/
def nodeMeasure : AstNode → Nat
  | .selectN s => whereMeasure s.whereClause
  | _ => 0

/-- The per-candidate conjunction built by the row-tuple batch case:
`eq(l0,r0) AND eq(l1,r1) AND ...`, left-folded exactly as the source
builds it. -/
def mkRowWhere (l0 r0 : ExprNode) (ls rs : List ExprNode) : ExprNode :=
  (List.zip ls rs).foldl
    (fun acc pr => .binOp .logicAnd acc (.binOp .eq pr.1 pr.2))
    (.binOp .eq l0 r0)

/-- The conjunction fold always produces a binary-operation node. -/
theorem foldlConj_isBinOp (zs : List (ExprNode × ExprNode)) :
    ∀ o a b, ∃ o2 a2 b2,
      zs.foldl (fun acc pr => ExprNode.binOp .logicAnd acc (.binOp .eq pr.1 pr.2))
          (.binOp o a b) = ExprNode.binOp o2 a2 b2 := by
  induction zs with
  | nil => intro o a b; exact ⟨o, a, b, rfl⟩
  | cons z zs ih => intro o a b; simpa using ih .logicAnd (.binOp o a b) (.binOp .eq z.1 z.2)

/-- A rewritten row candidate is never a top-level IN pattern, so the
recursive fast-path call never re-enters the batch rewrite. -/
theorem whereMeasure_mkRowWhere (l0 r0 : ExprNode) (ls rs : List ExprNode) :
    whereMeasure (some (mkRowWhere l0 r0 ls rs)) = 0 := by
  obtain ⟨o, a, b, h⟩ := foldlConj_isBinOp (List.zip ls rs) .eq l0 r0
  rw [mkRowWhere, h]
  rfl

mutual

/-- `TryFastPlan`. -/
def TryFastPlan (ctx : Ctx) (node : AstNode) : FastRes × Eff :=
  match node with
  | .selectN x =>
      match tryWhereIn2BatchPointGet ctx x with
      | (.planRes p, e1) => (.planRes p, e1)
      | (.panicRes, e1) => (.panicRes, e1)
      | (.nilRes, e1) =>
          match tryPointGetPlan ctx x with
          | (none, e2) => (.nilRes, e1.seq e2)
          | (some fp, e2) =>
              let chk := checkFastPlanPrivilege ctx fp [.select]
              let eff := (e1.seq e2).seq chk.2
              if ¬ chk.1 then (.nilRes, eff)
              else if fp.isTableDual then (.planRes (.tableDual (some fp.schema)), eff)
              else if x.lockTp = .selectLockForUpdate then
                if ¬ ctx.sessVars.autocommit ∨ ctx.sessVars.inTxn then
                  (.planRes (.pointGet { fp with lock := true, isForUpdate := true }), eff)
                else (.planRes (.pointGet fp), eff)
              else (.planRes (.pointGet fp), eff)
  | .updateN u =>
      match tryUpdatePointPlan ctx u with
      | (some p, e) => (.planRes p, e)
      | (none, e) => (.nilRes, e)
  | .deleteN d =>
      match tryDeletePointPlan ctx d with
      | (some p, e) => (.planRes p, e)
      | (none, e) => (.nilRes, e)
  | .otherNode => (.nilRes, Eff.empty)
termination_by (nodeMeasure node, 1, 0)

/-- `tryWhereIn2BatchPointGet`. -/
def tryWhereIn2BatchPointGet (ctx : Ctx) (selStmt : SelectStmt) : FastRes × Eff :=
  if selStmt.orderBy ∨ selStmt.groupBy ∨ selStmt.limit.isSome ∨ selStmt.having ∨
      selStmt.windowSpecs > 0 ∨ selStmt.lockTp ≠ .selectLockNone then
    (.nilRes, Eff.empty)
  else
    match hw : selStmt.whereClause with
    | some (.patternIn inExpr inNot inList) =>
        if inNot ∨ inList.length < 1 then (.nilRes, Eff.empty)
        else
          let reusedStmt : SelectStmt :=
            { distinct := selStmt.distinct, fromClause := selStmt.fromClause,
              fields := selStmt.fields }
          match inExpr with
          | .colName cn =>
              match batchScalarLoop ctx reusedStmt (.colName cn) inList with
              | (.okL children props, e) =>
                  (.planRes (.unionAll true ((children.head?.getD default).schema)
                    children props), e)
              | (.failedL, e) => (.nilRes, e)
              | (.panicL, e) => (.panicRes, e)
          | .row lvals =>
              if lvals.length < 1 then (.nilRes, Eff.empty)
              else
                match batchRowLoop ctx reusedStmt lvals inList with
                | (.okL children props, e) =>
                    (.planRes (.unionAll true ((children.head?.getD default).schema)
                      children props), e)
                | (.failedL, e) => (.nilRes, e)
                | (.panicL, e) => (.panicRes, e)
          | _ => (.nilRes, Eff.empty)
    | _ => (.nilRes, Eff.empty)
termination_by (nodeMeasure (.selectN selStmt), 0, 0)
decreasing_by
  all_goals simp_wf
  all_goals (apply Prod.Lex.left; simp [nodeMeasure, whereMeasure, hw])

/-- The scalar-column candidate loop of the batch path.  A candidate whose
recursive fast-path result is a non-`PointGetPlan` plan hits the source's
`fp.(*PointGetPlan)` type assertion, i.e. panics. -/
def batchScalarLoop (ctx : Ctx) (reusedStmt : SelectStmt) (lhs : ExprNode)
    (rows : List ExprNode) : LoopRes × Eff :=
  match rows with
  | [] => (.okL [] [], Eff.empty)
  | row :: rest =>
      let whereExpr := ExprNode.binOp .eq lhs row
      match TryFastPlan ctx (.selectN { reusedStmt with whereClause := some whereExpr }) with
      | (.nilRes, e) => (.failedL, e)
      | (.panicRes, e) => (.panicL, e)
      | (.planRes (.pointGet pg), e) =>
          match batchScalarLoop ctx reusedStmt lhs rest with
          | (.okL cs ps, e2) => (.okL (pg :: cs) (1 :: ps), e.seq e2)
          | (.failedL, e2) => (.failedL, e.seq e2)
          | (.panicL, e2) => (.panicL, e.seq e2)
      | (.planRes _, e) => (.panicL, e)
termination_by (0, 2, rows.length)

/-- The row-tuple candidate loop of the batch path. -/
def batchRowLoop (ctx : Ctx) (reusedStmt : SelectStmt) (lvals : List ExprNode)
    (rows : List ExprNode) : LoopRes × Eff :=
  match rows with
  | [] => (.okL [] [], Eff.empty)
  | row :: rest =>
      match row with
      | .row rvals =>
          if rvals.length ≠ lvals.length then (.failedL, Eff.empty)
          else
            match lvals, rvals with
            | l0 :: ls, r0 :: rs =>
                let whereExpr := mkRowWhere l0 r0 ls rs
                match TryFastPlan ctx
                    (.selectN { reusedStmt with whereClause := some whereExpr }) with
                | (.nilRes, e) => (.failedL, e)
                | (.panicRes, e) => (.panicL, e)
                | (.planRes (.pointGet pg), e) =>
                    match batchRowLoop ctx reusedStmt lvals rest with
                    | (.okL cs ps, e2) => (.okL (pg :: cs) (1 :: ps), e.seq e2)
                    | (.failedL, e2) => (.failedL, e.seq e2)
                    | (.panicL, e2) => (.panicL, e.seq e2)
                | (.planRes _, e) => (.panicL, e)
            | _, _ => (.failedL, Eff.empty)
      | _ => (.failedL, Eff.empty)
termination_by (0, 2, rows.length)
decreasing_by
  all_goals first
    | decreasing_tactic
    | (simp only [nodeMeasure, whereMeasure_mkRowWhere]; decreasing_tactic)

end

/-! ### Example fixtures

Concrete tables, statements and contexts used to instantiate the claims:
`fxT1` is `create table t1 (c1 bigint primary key, c2 bigint)` with the
integer primary key as row handle (as table `t1` of the explain fixture),
`fxT2` is a table with a unique two-column index `(a, b)` (as table
`index_prune` of the explain fixture), `fxT3` is a partitioned table. -/

/-- Fixture: column `c1 bigint primary key`. -/
def fxC1 : ColumnInfo :=
  { name := NewCIStr "c1", offset := 0, id := 1, fieldType := bigintType true }

/-- Fixture: column `c2 bigint`. -/
def fxC2 : ColumnInfo :=
  { name := NewCIStr "c2", offset := 1, id := 2, fieldType := bigintType false }

/-- Fixture: table `t1 (c1 bigint primary key, c2 bigint)`, primary key is
the handle. -/
def fxT1 : TableInfo :=
  { id := 41, name := NewCIStr "t1", columns := [fxC1, fxC2], pkIsHandle := true }

/-- Fixture: column `a bigint`. -/
def fxA : ColumnInfo :=
  { name := NewCIStr "a", offset := 0, id := 1, fieldType := bigintType false }

/-- Fixture: column `b bigint`. -/
def fxB : ColumnInfo :=
  { name := NewCIStr "b", offset := 1, id := 2, fieldType := bigintType false }

/-- Fixture: unique index on `(a, b)`, public, no prefix lengths. -/
def fxIdxAB : IndexInfo :=
  { name := NewCIStr "ab", columns := [{ name := NewCIStr "a" }, { name := NewCIStr "b" }],
    unique := true }

/-- Fixture: table `t2 (a bigint, b bigint, unique index (a, b))`. -/
def fxT2 : TableInfo :=
  { id := 42, name := NewCIStr "t2", columns := [fxA, fxB], indices := [fxIdxAB] }

/-- Fixture: a partitioned copy of `fxT1`. -/
def fxT3 : TableInfo :=
  { id := 43, name := NewCIStr "t3", columns := [fxC1, fxC2], pkIsHandle := true,
    partition := true }

/-- A FROM clause holding exactly the given table. -/
def fromSingleTable (tn : TableName) : Option TableRefsClause :=
  some ⟨some ⟨some (.tblSource ⟨.tblName tn, default⟩), false⟩⟩

/-- A bare `select *` field list. -/
def starFields : List SelectField := [{ wildcard := some {} }]

/-- An unqualified `col = <datum>` equality predicate. -/
def whereEqD (col : String) (d : Datum) : ExprNode :=
  .binOp .eq (.colName ⟨default, NewCIStr col⟩) (.value d)

/-- Fixture: name node of `fxT1`, no schema qualifier. -/
def fxT1Name : TableName := { name := NewCIStr "t1", tableInfo := some fxT1 }

/-- Fixture: name node of `fxT1` qualified with schema `d2`. -/
def fxT1NameD2 : TableName :=
  { schema := NewCIStr "d2", name := NewCIStr "t1", tableInfo := some fxT1 }

/-- Fixture: name node of `fxT2`. -/
def fxT2Name : TableName := { name := NewCIStr "t2", tableInfo := some fxT2 }

/-- Fixture: name node of the partitioned `fxT3`. -/
def fxT3Name : TableName := { name := NewCIStr "t3", tableInfo := some fxT3 }

/-- Fixture: `select * from t1 where c1 = <d>`. -/
def fxSelPk (d : Datum) : SelectStmt :=
  { fromClause := fromSingleTable fxT1Name, whereClause := some (whereEqD "c1" d),
    fields := starFields }

/-- Fixture: `select * from d2.t1 where c1 = <d>`. -/
def fxSelPkD2 (d : Datum) : SelectStmt :=
  { fromClause := fromSingleTable fxT1NameD2, whereClause := some (whereEqD "c1" d),
    fields := starFields }

/-- Fixture: `select * from t1 where c1 in (<es>)`. -/
def fxSelIn (es : List ExprNode) : SelectStmt :=
  { fromClause := fromSingleTable fxT1Name, fields := starFields,
    whereClause := some (.patternIn (.colName ⟨default, NewCIStr "c1"⟩) false es) }

/-- Fixture context: current database `test`, autocommit, no open
transaction, no privilege manager. -/
def fxCtx : Ctx := { sessVars := { currentDB := "test" } }

/-- Fixture privilege oracle granting everything. -/
def fxPmAllow : List String → String → String → PrivType → Bool := fun _ _ _ _ => true

/-- Fixture context with an always-granting privilege manager and one
active role. -/
def fxCtxPriv : Ctx :=
  { sessVars := { currentDB := "test", activeRoles := ["r1"] }, privManager := some fxPmAllow }

/-- The number of children of a produced batch-union plan, `none` for any
other result. -/
def FastRes.unionChildCount : FastRes → Option Nat
  | .planRes (.unionAll _ _ cs _) => some cs.length
  | _ => none

/-- The target database recorded on a produced point plan, `none` for any
other result. -/
def FastRes.pointDb : FastRes → Option String
  | .planRes (.pointGet p) => some p.dbName.L
  | _ => none

/-- The produced plan, or an empty table-dual placeholder for a non-plan
result. -/
def FastRes.planD : FastRes → Plan
  | .planRes p => p
  | _ => .tableDual none

/-! ### Claims -/

/-- Claim C2, code bug: on `SELECT * FROM t1 WHERE c1 IN (10^19)` — an
IN-list candidate whose value overflows the `bigint` primary key, so the
recursive fast-path call returns an empty-result (`PhysicalTableDual`) plan
— the batch path's `fp.(*PointGetPlan)` type assertion fails, i.e. the
planner panics instead of returning a plan or nil.  The second conjunct
shows the inner candidate indeed produced a table-dual point plan. -/
theorem tryFastPlan_batch_dual_candidate_panics :
    (TryFastPlan fxCtx (.selectN (fxSelIn [.value (.uint 10000000000000000000)]))).1
        = FastRes.panicRes ∧
    (tryPointGetPlan fxCtx (fxSelPk (.uint 10000000000000000000))).1.map
        (fun p => p.isTableDual) = some true := by
  constructor
  · simp only [fxSelIn, TryFastPlan, tryWhereIn2BatchPointGet, batchScalarLoop, batchRowLoop]
    decide
  · decide

/-- Claim C5, code bug: on `SELECT * FROM t1 WHERE c1 IN (10^19, c2)` the
second candidate's rewritten query `c1 = c2` produces no fast plan (second
conjunct), so by the claim the whole batch attempt must return nil — but
the planner panics on the first candidate's empty-result plan before ever
reaching it (first conjunct). -/
theorem batch_candidate_failure_panics :
    (TryFastPlan fxCtx (.selectN (fxSelIn
        [.value (.uint 10000000000000000000), .colName ⟨default, NewCIStr "c2"⟩]))).1
        = FastRes.panicRes ∧
    (TryFastPlan fxCtx (.selectN
        { fromClause := fromSingleTable fxT1Name, fields := starFields,
          whereClause := some (.binOp .eq (.colName ⟨default, NewCIStr "c1"⟩)
            (.colName ⟨default, NewCIStr "c2"⟩)) })).1 = FastRes.nilRes := by
  constructor
  · simp only [fxSelIn, TryFastPlan, tryWhereIn2BatchPointGet, batchScalarLoop, batchRowLoop]
    decide
  · simp only [fxSelIn, TryFastPlan, tryWhereIn2BatchPointGet, batchScalarLoop, batchRowLoop]
    decide

/-- Claim C3, counterexample: `SELECT * FROM t1 WHERE c1 IN (1, 1)` yields a
batch-union plan with 2 children, while the IN-list holds only 1 distinct
value tuple — the child count equals the list length, not the number of
distinct tuples. -/
theorem batch_children_count_duplicates_counterexample :
    (TryFastPlan fxCtx (.selectN (fxSelIn [.value (.int 1), .value (.int 1)]))).1.unionChildCount
        = some 2 ∧
    ([Datum.int 1, Datum.int 1].dedup).length = 1 := by
  constructor
  · simp only [fxSelIn, TryFastPlan, tryWhereIn2BatchPointGet, batchScalarLoop, batchRowLoop]
    decide
  · decide

/-- Claim C9, counterexample: for `SELECT * FROM d2.t1 WHERE c1 = 7` with
session database `test`, the single verification call carries the session's
current database `test`, not the statement's target database `d2` (recorded
on the produced plan); and a two-element batch statement performs two
verification calls before its one union plan is returned. -/
theorem privilege_check_uses_current_db_counterexample :
    (TryFastPlan fxCtxPriv (.selectN (fxSelPkD2 (.int 7)))).2.privCalls
        = [⟨["r1"], "test", "t1", .select⟩] ∧
    (TryFastPlan fxCtxPriv (.selectN (fxSelPkD2 (.int 7)))).1.pointDb = some "d2" ∧
    "d2" ≠ "test" ∧
    (TryFastPlan fxCtxPriv (.selectN (fxSelIn [.value (.int 1), .value (.int 2)]))).2.privCalls.length
        = 2 := by
  refine ⟨?_, ?_, by decide, ?_⟩
  · simp only [fxSelPkD2, TryFastPlan, tryWhereIn2BatchPointGet, batchScalarLoop, batchRowLoop]
    decide
  · simp only [fxSelPkD2, TryFastPlan, tryWhereIn2BatchPointGet, batchScalarLoop, batchRowLoop]
    decide
  · simp only [fxSelIn, TryFastPlan, tryWhereIn2BatchPointGet, batchScalarLoop, batchRowLoop]
    decide

/-- Claim C10, counterexample: planning `SELECT * FROM t1 WHERE c1 = 7`
writes the planned table into the session's statement context
(`StmtCtx.Tables`), so the session state after planning differs from the
state before — the write does not belong to the constructed plan object. -/
theorem planning_writes_stmtctx_counterexample :
    (TryFastPlan fxCtx (.selectN (fxSelPk (.int 7)))).2.tables
        = some [⟨"test", "t1"⟩] ∧
    fxCtx.sessVars.applyEff (TryFastPlan fxCtx (.selectN (fxSelPk (.int 7)))).2
        ≠ fxCtx.sessVars := by
  constructor
  · simp only [fxSelPk, TryFastPlan, tryWhereIn2BatchPointGet, batchScalarLoop, batchRowLoop]
    decide
  · simp only [fxSelPk, TryFastPlan, tryWhereIn2BatchPointGet, batchScalarLoop, batchRowLoop]
    decide

/-! ### Helper lemmas -/

/-- The projected output schema of a statement as `tryPointGetPlan` computes
it — a function of the FROM clause and the field list only. -/
def projSchema (ctx : Ctx) (s : SelectStmt) : Option Schema :=
  match getSingleTableNameAndAlias s.fromClause with
  | (none, _) => none
  | (some tblName, tblAlias) =>
      match tblName.tableInfo with
      | none => none
      | some tbl => buildSchemaFromFields ctx tblName.schema tbl tblAlias s.fields

/-- A successful `getIndexValues` implies the index has no prefix column. -/
theorem getIndexValues_no_prefix (idx : IndexInfo) (pairs : List NVPair)
    (v : List Datum × List (Option Nat)) (h : getIndexValues idx pairs = some v) :
    idx.hasPrefixIndex = false := by
  unfold getIndexValues at h
  split at h
  · exact absurd h (by simp)
  · split at h
    · exact absurd h (by simp)
    · simpa using Bool.not_eq_true _ |>.mp (by assumption)

/-- Shape of any plan produced by the unique-index scan loop. -/
theorem indexLoop_shape (ctx : Ctx) (s : SelectStmt) (tn : TableName) (ta db : CIStr)
    (tbl : TableInfo) (pairs : List NVPair) :
    ∀ (l : List IndexInfo) (p : PointGetPlan) (e : Eff),
      indexLoop ctx s tn ta db tbl pairs l = (some p, e) →
      p.lock = false ∧ p.isForUpdate = false ∧ p.isTableDual = false ∧
      p.tblInfo = tbl ∧
      buildSchemaFromFields ctx tn.schema tbl ta s.fields = some p.schema ∧
      e = { tables := some [⟨ctx.sessVars.currentDB, tbl.name.L⟩], privCalls := [] } ∧
      ∃ idx, p.indexInfo = some idx ∧ idx ∈ l ∧ idx.hasPrefixIndex = false ∧
        idx.unique = true ∧ idx.state = SchemaState.statePublic ∧
        getIndexValues idx pairs = some (p.indexValues, p.indexValueParams) := by
  intro l
  induction l with
  | nil => intro p e h; simp [indexLoop] at h
  | cons idx rest ih =>
      intro p e h
      rw [indexLoop] at h
      split at h
      · obtain ⟨h1, h2, h3, h4, h5, h6, idx2, hx1, hx2, hx3, hx4, hx5⟩ := ih p e h
        exact ⟨h1, h2, h3, h4, h5, h6, idx2, hx1, List.mem_cons_of_mem _ hx2, hx3, hx4, hx5⟩
      · split at h
        · obtain ⟨h1, h2, h3, h4, h5, h6, idx2, hx1, hx2, hx3, hx4, hx5⟩ := ih p e h
          exact ⟨h1, h2, h3, h4, h5, h6, idx2, hx1, List.mem_cons_of_mem _ hx2, hx3, hx4, hx5⟩
        · rename_i hu hs
          split at h
          · obtain ⟨h1, h2, h3, h4, h5, h6, idx2, hx1, hx2, hx3, hx4, hx5⟩ := ih p e h
            exact ⟨h1, h2, h3, h4, h5, h6, idx2, hx1, List.mem_cons_of_mem _ hx2, hx3, hx4, hx5⟩
          · rename_i vals hgiv
            split at h
            · exact absurd h (by simp)
            · rename_i sch hsch
              injection h with hp he
              injection hp with hp2
              subst hp2
              subst he
              refine ⟨by simp [newPointGetPlan], by simp [newPointGetPlan],
                by simp [newPointGetPlan], by simp [newPointGetPlan],
                by simpa [newPointGetPlan] using hsch, by simp [newPointGetPlan], idx,
                by simp [newPointGetPlan], List.mem_cons_self _ _,
                getIndexValues_no_prefix idx pairs _ hgiv,
                by simpa using hu, by simpa using hs, ?_⟩
              simpa [newPointGetPlan] using hgiv

/-- Shape of any plan produced by `tryPointGetPlan`: fresh lock flags, the
schema from the schema projector, the statement-context write as its only
effect, and never a prefix index. -/
theorem tryPointGetPlan_shape (ctx : Ctx) (s : SelectStmt) (p : PointGetPlan) (e : Eff)
    (h : tryPointGetPlan ctx s = (some p, e)) :
    p.lock = false ∧ p.isForUpdate = false ∧
    projSchema ctx s = some p.schema ∧
    e = { tables := some [⟨ctx.sessVars.currentDB, p.tblInfo.name.L⟩], privCalls := [] } ∧
    (∀ idx, p.indexInfo = some idx → idx.hasPrefixIndex = false) := by
  unfold tryPointGetPlan at h
  split at h
  · exact absurd h (by simp)
  split at h
  · exact absurd h (by simp)
  split at h
  · exact absurd h (by simp)
  rename_i tblName tblAlias hfrom
  split at h
  · exact absurd h (by simp)
  rename_i tbl hti
  split at h
  · -- unqualified statement: dbName from the session
    split at h
    · exact absurd h (by simp)
    split at h
    · exact absurd h (by simp)
    split at h
    · exact absurd h (by simp)
    rename_i whereExpr hw
    split at h
    · exact absurd h (by simp)
    rename_i pairs hpairs
    split at h
    · -- schema projection failed
      dsimp only [] at h
      split at h
      · exact absurd h (by simp)
      · obtain ⟨h1, h2, h3, h4, h5, h6, idx2, hx1, hx2, hx3, hx4, hx5⟩ :=
            indexLoop_shape ctx s tblName tblAlias _ tbl pairs tbl.indices p e h
        refine ⟨h1, h2, ?_, by rw [h6, h4], ?_⟩
        · simp [projSchema, hfrom, hti, h5]
        · intro idx3 hidx3
          rw [hx1] at hidx3
          obtain rfl := (Option.some.injEq _ _).mp hidx3.symm
          exact hx3
    · rename_i sch hsch
      have hproj : projSchema ctx s = some sch := by
        simp [projSchema, hfrom, hti, hsch]
      dsimp only [] at h
      split at h
      · -- primary-key handle branch: conversion outcomes
        split at h <;> try split at h
        all_goals simp only [Prod.mk.injEq, Option.some.injEq, reduceCtorEq,
          false_and, and_false] at h
        all_goals (
          obtain ⟨hp2, he⟩ := h
          subst hp2
          subst he
          refine ⟨?_, ?_, ?_, ?_, ?_⟩ <;> simp [newPointGetPlan, hproj])
      · obtain ⟨h1, h2, h3, h4, h5, h6, idx2, hx1, hx2, hx3, hx4, hx5⟩ :=
            indexLoop_shape ctx s tblName tblAlias _ tbl pairs tbl.indices p e h
        refine ⟨h1, h2, ?_, by rw [h6, h4], ?_⟩
        · simp [projSchema, hfrom, hti, h5]
        · intro idx3 hidx3
          rw [hx1] at hidx3
          obtain rfl := (Option.some.injEq _ _).mp hidx3.symm
          exact hx3
  · -- schema-qualified statement
    split at h
    · exact absurd h (by simp)
    split at h
    · exact absurd h (by simp)
    split at h
    · exact absurd h (by simp)
    rename_i whereExpr hw
    split at h
    · exact absurd h (by simp)
    rename_i pairs hpairs
    split at h
    · -- schema projection failed
      dsimp only [] at h
      split at h
      · exact absurd h (by simp)
      · obtain ⟨h1, h2, h3, h4, h5, h6, idx2, hx1, hx2, hx3, hx4, hx5⟩ :=
            indexLoop_shape ctx s tblName tblAlias _ tbl pairs tbl.indices p e h
        refine ⟨h1, h2, ?_, by rw [h6, h4], ?_⟩
        · simp [projSchema, hfrom, hti, h5]
        · intro idx3 hidx3
          rw [hx1] at hidx3
          obtain rfl := (Option.some.injEq _ _).mp hidx3.symm
          exact hx3
    · rename_i sch hsch
      have hproj : projSchema ctx s = some sch := by
        simp [projSchema, hfrom, hti, hsch]
      dsimp only [] at h
      split at h
      · -- primary-key handle branch: conversion outcomes
        split at h <;> try split at h
        all_goals simp only [Prod.mk.injEq, Option.some.injEq, reduceCtorEq,
          false_and, and_false] at h
        all_goals (
          obtain ⟨hp2, he⟩ := h
          subst hp2
          subst he
          refine ⟨?_, ?_, ?_, ?_, ?_⟩ <;> simp [newPointGetPlan, hproj])
      · obtain ⟨h1, h2, h3, h4, h5, h6, idx2, hx1, hx2, hx3, hx4, hx5⟩ :=
            indexLoop_shape ctx s tblName tblAlias _ tbl pairs tbl.indices p e h
        refine ⟨h1, h2, ?_, by rw [h6, h4], ?_⟩
        · simp [projSchema, hfrom, hti, h5]
        · intro idx3 hidx3
          rw [hx1] at hidx3
          obtain rfl := (Option.some.injEq _ _).mp hidx3.symm
          exact hx3

/-- The batch rewrite declines any statement carrying a lock clause. -/
theorem batch_nil_of_lock (ctx : Ctx) (s : SelectStmt)
    (h : s.lockTp ≠ SelectLockType.selectLockNone) :
    tryWhereIn2BatchPointGet ctx s = (.nilRes, Eff.empty) := by
  rw [tryWhereIn2BatchPointGet]
  simp [h]

/-- The batch rewrite declines any statement whose WHERE clause is not a
top-level IN pattern. -/
theorem batch_nil_of_not_in (ctx : Ctx) (s : SelectStmt)
    (h : whereMeasure s.whereClause = 0) :
    tryWhereIn2BatchPointGet ctx s = (.nilRes, Eff.empty) := by
  rw [tryWhereIn2BatchPointGet]
  split
  · rfl
  · split
    · rename_i heq
      rw [heq] at h
      exact absurd h (by simp [whereMeasure])
    · rfl

/-- Fixture: `select * from t1 where c1 = <d> for update`. -/
def fxSelPkFor (d : Datum) : SelectStmt :=
  { fromClause := fromSingleTable fxT1Name, whereClause := some (whereEqD "c1" d),
    fields := starFields, lockTp := .selectLockForUpdate }

/-- Fixture context: inside an explicitly started transaction. -/
def fxCtxTxn : Ctx := { sessVars := { currentDB := "test", inTxn := true } }

/-- Claim C6: for a `SELECT ... FOR UPDATE` that produces a point-get plan,
the plan's `Lock` and `IsForUpdate` flags are set if and only if autocommit
is disabled or a transaction is open; under implicit autocommit with no
open transaction both flags remain unset. -/
theorem forUpdate_lock_flags_iff (ctx : Ctx) (s : SelectStmt) (fp : PointGetPlan) (e2 : Eff)
    (hlock : s.lockTp = SelectLockType.selectLockForUpdate)
    (hfp : tryPointGetPlan ctx s = (some fp, e2))
    (hok : (checkFastPlanPrivilege ctx fp [PrivType.select]).1 = true)
    (hdual : fp.isTableDual = false) :
    ∃ p, (TryFastPlan ctx (.selectN s)).1 = FastRes.planRes (.pointGet p) ∧
      (p.lock = true ↔ (¬ ctx.sessVars.autocommit = true ∨ ctx.sessVars.inTxn = true)) ∧
      (p.isForUpdate = true ↔ (¬ ctx.sessVars.autocommit = true ∨ ctx.sessVars.inTxn = true)) := by
  have hbatch := batch_nil_of_lock ctx s (by simp [hlock])
  have hshape := tryPointGetPlan_shape ctx s fp e2 hfp
  by_cases hc : (¬ ctx.sessVars.autocommit = true ∨ ctx.sessVars.inTxn = true)
  all_goals simp only [Bool.not_eq_true] at hc
  · refine ⟨{ fp with lock := true, isForUpdate := true }, ?_, by simp [hc], by simp [hc]⟩
    simp [TryFastPlan, hbatch, hfp, hok, hdual, hlock, hc]
  · refine ⟨fp, ?_, by simp [hshape.1, hc], by simp [hshape.2.1, hc]⟩
    simp [TryFastPlan, hbatch, hfp, hok, hdual, hlock, hc]

/-- Witness for C6 at `select * from t1 where c1 = 7 for update` inside an
open transaction. -/
theorem forUpdate_lock_flags_iff_witness :
    ∃ p, (TryFastPlan fxCtxTxn (.selectN (fxSelPkFor (.int 7)))).1
        = FastRes.planRes (.pointGet p) ∧
      (p.lock = true ↔ (¬ fxCtxTxn.sessVars.autocommit = true ∨ fxCtxTxn.sessVars.inTxn = true)) ∧
      (p.isForUpdate = true ↔
        (¬ fxCtxTxn.sessVars.autocommit = true ∨ fxCtxTxn.sessVars.inTxn = true)) :=
  forUpdate_lock_flags_iff fxCtxTxn (fxSelPkFor (.int 7))
    ((tryPointGetPlan fxCtxTxn (fxSelPkFor (.int 7))).1.getD default)
    ((tryPointGetPlan fxCtxTxn (fxSelPkFor (.int 7))).2)
    rfl (by decide) (by decide) (by decide)

/-- The spec-modelled conversion produces only the overflow and truncation
error classes — the source's third branch (any other conversion error,
which falls back to the general optimizer) is unreachable for literal
values. -/
theorem convertTo_ne_other (d : Datum) (ft : FieldType) :
    (d.convertTo ft).2 ≠ some ConvErr.other := by
  cases d <;> simp only [Datum.convertTo] <;>
    repeat' first
      | simp
      | split

/-- Fixture: `select * from t3 where c1 = 7` on the partitioned table. -/
def fxSelT3Pk : SelectStmt :=
  { fromClause := fromSingleTable fxT3Name, fields := starFields,
    whereClause := some (whereEqD "c1" (.int 7)) }

/-- Fixture: `select * from t2 where a = 1 and b = 2`, matching the unique
index `(a, b)`. -/
def fxSelAB : SelectStmt :=
  { fromClause := fromSingleTable fxT2Name, fields := starFields,
    whereClause := some (.binOp .logicAnd (whereEqD "a" (.int 1)) (whereEqD "b" (.int 2))) }

/-- Claim C8: a table with partitioning metadata, or with any generated or
non-public column, makes `tryPointGetPlan` return nil regardless of the
predicate; and no produced plan is ever keyed by an index with a
prefix-length restriction. -/
theorem ineligible_table_and_no_partial_key_index :
    (∀ (ctx : Ctx) (s : SelectStmt) (tn : TableName) (ta : CIStr) (tbl : TableInfo),
        getSingleTableNameAndAlias s.fromClause = (some tn, ta) →
        tn.tableInfo = some tbl →
        (tbl.partition = true ∨
          ∃ c ∈ tbl.columns, c.generated = true ∨ c.state ≠ SchemaState.statePublic) →
        (tryPointGetPlan ctx s).1 = none) ∧
    (∀ (ctx : Ctx) (s : SelectStmt) (p : PointGetPlan) (idx : IndexInfo),
        (tryPointGetPlan ctx s).1 = some p → p.indexInfo = some idx →
        idx.hasPrefixIndex = false) := by
  constructor
  · intro ctx s tn ta tbl hfrom hti hbad
    unfold tryPointGetPlan
    split
    · rfl
    split
    · rfl
    split
    · rfl
    rename_i tn2 ta2 hfrom2
    rw [hfrom] at hfrom2
    injection hfrom2 with h1 h2
    injection h1 with h1
    subst h1
    subst h2
    split
    · rfl
    rename_i tbl2 hti2
    rw [hti] at hti2
    injection hti2 with h3
    subst h3
    dsimp only []
    by_cases hpart : tbl.partition = true
    · simp [hpart]
    · rcases hbad with hp | ⟨c, hcmem, hcbad⟩
      · exact absurd hp hpart
      · have hex : ∃ x ∈ tbl.columns, x.generated = true ∨ ¬x.state = SchemaState.statePublic :=
          ⟨c, hcmem, hcbad⟩
        simp [hpart, hex]
  · intro ctx s p idx h hidx
    rcases hr : tryPointGetPlan ctx s with ⟨p1, e1⟩
    rw [hr] at h
    simp only at h
    subst h
    exact (tryPointGetPlan_shape ctx s p e1 hr).2.2.2.2 idx hidx

/-- Witness for C8: the partitioned table `t3` is rejected, and the chosen
index of the `a = 1 AND b = 2` plan on `t2` has no prefix restriction. -/
theorem ineligible_table_and_no_partial_key_index_witness :
    (tryPointGetPlan fxCtx fxSelT3Pk).1 = none ∧ fxIdxAB.hasPrefixIndex = false :=
  ⟨ineligible_table_and_no_partial_key_index.1 fxCtx fxSelT3Pk fxT3Name (NewCIStr "t3")
      fxT3 (by decide) rfl (Or.inl rfl),
   ineligible_table_and_no_partial_key_index.2 fxCtx fxSelAB
      ((tryPointGetPlan fxCtx fxSelAB).1.getD default) fxIdxAB (by decide) (by decide)⟩

/-- The point plan built at the start of the primary-key handle branch,
before the conversion outcome adjusts it (proof abbreviation). -/
def handleBasePlan (ctx : Ctx) (sch : Schema) (tn : TableName) (tbl : TableInfo) :
    PointGetPlan :=
  (newPointGetPlan ctx sch
    (if tn.schema.L = "" then NewCIStr ctx.sessVars.currentDB else tn.schema) tbl).1

/-- Claim C1: for a single-pair primary-key-handle match, converting the
constraint value to the key's declared field type has exactly three
outcomes — overflow yields an empty-result (`IsTableDual`) plan; a
truncating (or otherwise inexact) conversion is compared back against the
original and yields an empty-result plan when unequal, otherwise the
converted value becomes the handle; an exact conversion is accepted
directly as the handle.  The first conjunct rules out the fourth, silent
fallback branch of the source (other conversion errors), which the
modelled conversion never produces. -/
theorem tryPointGetPlan_handle_trichotomy
    (ctx : Ctx) (s : SelectStmt) (tn : TableName) (ta : CIStr) (tbl : TableInfo)
    (w : ExprNode) (pair : NVPair) (ft : FieldType) (sch : Schema)
    (hhav : s.having = false)
    (hlim : limitDisqualifies s.limit = false)
    (hfrom : getSingleTableNameAndAlias s.fromClause = (some tn, ta))
    (hti : tn.tableInfo = some tbl)
    (hpart : tbl.partition = false)
    (hcols : (tbl.columns.any fun col =>
        col.generated || decide (col.state ≠ SchemaState.statePublic)) = false)
    (hw : s.whereClause = some w)
    (hpairs : getNameValuePairs [] ta w = some [pair])
    (hpk : findPKHandle tbl [pair] = (pair, some ft))
    (hnn : pair.value.isNull = false)
    (hsch : buildSchemaFromFields ctx tn.schema tbl ta s.fields = some sch) :
    (pair.value.convertTo ft).2 ≠ some ConvErr.other ∧
    ∃ p, (tryPointGetPlan ctx s).1 = some p ∧
      ((pair.value.convertTo ft).2 = some ConvErr.overflow → p.isTableDual = true) ∧
      ((pair.value.convertTo ft).2 ≠ some ConvErr.overflow →
        compareDatum (pair.value.convertTo ft).1 pair.value ≠ 0 → p.isTableDual = true) ∧
      ((pair.value.convertTo ft).2 ≠ some ConvErr.overflow →
        compareDatum (pair.value.convertTo ft).1 pair.value = 0 →
        p.isTableDual = false ∧ p.handle = (pair.value.convertTo ft).1.getInt64 ∧
        p.unsignedHandle = ft.unsigned ∧ p.handleParam = pair.param) := by
  refine ⟨convertTo_ne_other pair.value ft, ?_⟩
  have hnex : ¬ ∃ x ∈ tbl.columns, x.generated = true ∨ ¬x.state = SchemaState.statePublic := by
    rintro ⟨x, hx, hxbad⟩
    have hx2 : (tbl.columns.any fun col =>
        col.generated || decide (col.state ≠ SchemaState.statePublic)) = true := by
      refine List.any_eq_true.mpr ⟨x, hx, ?_⟩
      rcases hxbad with a | b
      · simp [a]
      · simp [b]
    rw [hcols] at hx2
    exact Bool.false_ne_true hx2
  rcases hconv : (pair.value.convertTo ft).2 with - | ce
  · by_cases hcmp : compareDatum (pair.value.convertTo ft).1 pair.value = 0
    · -- exact conversion, accepted as the handle
      refine ⟨{ handleBasePlan ctx sch tn tbl with
          handle := (pair.value.convertTo ft).1.getInt64, unsignedHandle := ft.unsigned,
          handleParam := pair.param }, ?_, by simp [hconv], by simp [hcmp],
        fun _ _ => ⟨by simp [handleBasePlan, newPointGetPlan], rfl, rfl, rfl⟩⟩
      unfold tryPointGetPlan
      simp [hhav, hlim, hfrom, hti, hpart, hcols, hnex, hw, hpairs, hpk, hnn, hsch, hconv,
        hcmp, newPointGetPlan, handleBasePlan]
    · -- errorless conversion failing the compare-back: empty result
      refine ⟨{ handleBasePlan ctx sch tn tbl with isTableDual := true }, ?_,
        by simp [hconv], fun _ _ => rfl, fun _ hc => absurd hc hcmp⟩
      unfold tryPointGetPlan
      simp [hhav, hlim, hfrom, hti, hpart, hcols, hnex, hw, hpairs, hpk, hnn, hsch, hconv,
        hcmp, newPointGetPlan, handleBasePlan]
  · cases ce
    · -- overflow: empty result
      refine ⟨{ handleBasePlan ctx sch tn tbl with isTableDual := true }, ?_,
        fun _ => rfl, fun hne => absurd rfl hne, fun hne => absurd rfl hne⟩
      unfold tryPointGetPlan
      simp [hhav, hlim, hfrom, hti, hpart, hcols, hnex, hw, hpairs, hpk, hnn, hsch, hconv,
        newPointGetPlan, handleBasePlan]
    · -- truncation: compare the truncated value back against the original
      by_cases hcmp : compareDatum (pair.value.convertTo ft).1 pair.value = 0
      · refine ⟨{ handleBasePlan ctx sch tn tbl with
            handle := (pair.value.convertTo ft).1.getInt64, unsignedHandle := ft.unsigned,
            handleParam := pair.param }, ?_, by simp [hconv], by simp [hcmp],
          fun _ _ => ⟨by simp [handleBasePlan, newPointGetPlan], rfl, rfl, rfl⟩⟩
        unfold tryPointGetPlan
        simp [hhav, hlim, hfrom, hti, hpart, hcols, hnex, hw, hpairs, hpk, hnn, hsch, hconv,
          hcmp, newPointGetPlan, handleBasePlan]
      · refine ⟨{ handleBasePlan ctx sch tn tbl with isTableDual := true }, ?_,
          by simp [hconv], fun _ _ => rfl, fun _ hc => absurd hc hcmp⟩
        unfold tryPointGetPlan
        simp [hhav, hlim, hfrom, hti, hpart, hcols, hnex, hw, hpairs, hpk, hnn, hsch, hconv,
          hcmp, newPointGetPlan, handleBasePlan]
    · exact absurd hconv (convertTo_ne_other pair.value ft)

/-- Witness for C1 at `select * from t1 where c1 = 7`. -/
theorem tryPointGetPlan_handle_trichotomy_witness :
    ((Datum.int 7).convertTo (bigintType true)).2 ≠ some ConvErr.other ∧
    ∃ p, (tryPointGetPlan fxCtx (fxSelPk (.int 7))).1 = some p ∧
      (((Datum.int 7).convertTo (bigintType true)).2 = some ConvErr.overflow →
        p.isTableDual = true) ∧
      (((Datum.int 7).convertTo (bigintType true)).2 ≠ some ConvErr.overflow →
        compareDatum ((Datum.int 7).convertTo (bigintType true)).1 (Datum.int 7) ≠ 0 →
        p.isTableDual = true) ∧
      (((Datum.int 7).convertTo (bigintType true)).2 ≠ some ConvErr.overflow →
        compareDatum ((Datum.int 7).convertTo (bigintType true)).1 (Datum.int 7) = 0 →
        p.isTableDual = false ∧
        p.handle = ((Datum.int 7).convertTo (bigintType true)).1.getInt64 ∧
        p.unsignedHandle = (bigintType true).unsigned ∧ p.handleParam = none) :=
  tryPointGetPlan_handle_trichotomy fxCtx (fxSelPk (.int 7)) fxT1Name (NewCIStr "t1") fxT1
    (whereEqD "c1" (.int 7)) ⟨"c1", .int 7, none⟩ (bigintType true)
    ((buildSchemaFromFields fxCtx fxT1Name.schema fxT1 (NewCIStr "t1") starFields).getD default)
    rfl (by decide) (by decide) rfl rfl (by decide) rfl (by decide) (by decide) (by decide)
    (by decide)

/-- Fixture: pessimistic-transaction context. -/
def fxCtxPess : Ctx := { sessVars := { currentDB := "test", txnPessimistic := true } }

/-- Fixture: `update t1 set c2 = 5 where c1 = 7`. -/
def fxUpd : UpdateStmt :=
  { tableRefs := fromSingleTable fxT1Name, whereClause := some (whereEqD "c1" (.int 7)),
    list := [{ column := ⟨default, NewCIStr "c2"⟩, expr := .value (.int 5) }] }

/-- Fixture: `delete from t1 where c1 = 7`. -/
def fxDel : DeleteStmt :=
  { tableRefs := fromSingleTable fxT1Name, whereClause := some (whereEqD "c1" (.int 7)) }

/-- The canonical SELECT shape `tryUpdatePointPlan` builds from an UPDATE. -/
def updCanonicalSel (u : UpdateStmt) : SelectStmt :=
  { fields := [], fromClause := u.tableRefs, whereClause := u.whereClause,
    orderBy := u.order, limit := u.limit }

/-- The canonical SELECT shape `tryDeletePointPlan` builds from a DELETE. -/
def delCanonicalSel (d : DeleteStmt) : SelectStmt :=
  { fields := [], fromClause := d.tableRefs, whereClause := d.whereClause,
    orderBy := d.order, limit := d.limit }

/-- Claim C7: a qualifying single-table UPDATE or DELETE yields a mutation
plan wrapping the point plan as its data source, with the lookup's `Lock`
flag set exactly when the transaction is pessimistic and the handle
column's ordinal recorded in the wrapper; when the schema holds no
primary-key handle column, a synthetic extra-handle column is appended to
it (third conjunct). -/
theorem mutation_plans_wrap_point_get (ctx : Ctx) :
    (∀ (u : UpdateStmt) (fs : PointGetPlan) (e1 : Eff) (ol : List Assignment),
      tryPointGetPlan ctx (updCanonicalSel u) = (some fs, e1) →
      (checkFastPlanPrivilege ctx fs [PrivType.select, PrivType.update]).1 = true →
      fs.isTableDual = false →
      buildOrderedList ctx
          (if ctx.sessVars.txnPessimistic then { fs with lock := true } else fs) u.list
          = some ol →
      ∃ hc fs2,
        findHandleCol (if ctx.sessVars.txnPessimistic then { fs with lock := true } else fs)
          = (hc, fs2) ∧
        (tryUpdatePointPlan ctx u).1 = some (.updateP
          { selectPlan := fs2, orderedList := ol,
            tblColPosInfos := [{ tblID := fs2.tblInfo.id, startPos := 0,
                                 endPos := fs2.schema.len, handleOrdinal := hc.index }] }) ∧
        fs2.lock = ctx.sessVars.txnPessimistic) ∧
    (∀ (d : DeleteStmt) (fs : PointGetPlan) (e1 : Eff),
      d.isMultiTable = false →
      tryPointGetPlan ctx (delCanonicalSel d) = (some fs, e1) →
      (checkFastPlanPrivilege ctx fs [PrivType.select, PrivType.delete]).1 = true →
      fs.isTableDual = false →
      ∃ hc fs2,
        findHandleCol (if ctx.sessVars.txnPessimistic then { fs with lock := true } else fs)
          = (hc, fs2) ∧
        (tryDeletePointPlan ctx d).1 = some (.deleteP
          { selectPlan := fs2,
            tblColPosInfos := [{ tblID := fs2.tblInfo.id, startPos := 0,
                                 endPos := fs2.schema.len, handleOrdinal := hc.index }] }) ∧
        fs2.lock = ctx.sessVars.txnPessimistic) ∧
    (∀ p : PointGetPlan, findHandleColScanned p = none →
      (findHandleCol p).2.schema = p.schema.append (findHandleCol p).1 ∧
      (findHandleCol p).1.index = p.schema.len ∧
      (findHandleCol p).1.colName = extraHandleName) := by
  have hfhc : ∀ q : PointGetPlan,
      (findHandleCol q).2.lock = q.lock ∧ (findHandleCol q).2.tblInfo = q.tblInfo := by
    intro q
    unfold findHandleCol
    rcases hs : findHandleColScanned q with - | c <;> simp [hs]
  refine ⟨?_, ?_, ?_⟩
  · intro u fs e1 ol hfp hok hdual hol
    have hshape := tryPointGetPlan_shape ctx _ fs e1 hfp
    rcases hhc : findHandleCol
        (if ctx.sessVars.txnPessimistic then { fs with lock := true } else fs) with ⟨hc, fs2⟩
    refine ⟨hc, fs2, rfl, ?_, ?_⟩
    · unfold tryUpdatePointPlan
      simp only [updCanonicalSel] at hfp
      have hdual2 : (fs.isTableDual = true) = False := by simp [hdual]
      simp [hfp, hok, hdual2, hol, hhc]
    · have h2 := (hfhc (if ctx.sessVars.txnPessimistic then { fs with lock := true } else fs)).1
      rw [hhc] at h2
      by_cases hp : ctx.sessVars.txnPessimistic = true
      · simp [hp] at h2 ⊢
        exact h2
      · simp only [Bool.not_eq_true] at hp
        simp [hp] at h2 ⊢
        rw [h2, hshape.1]
  · intro d fs e1 hmt hfp hok hdual
    have hshape := tryPointGetPlan_shape ctx _ fs e1 hfp
    rcases hhc : findHandleCol
        (if ctx.sessVars.txnPessimistic then { fs with lock := true } else fs) with ⟨hc, fs2⟩
    refine ⟨hc, fs2, rfl, ?_, ?_⟩
    · unfold tryDeletePointPlan
      simp only [delCanonicalSel] at hfp
      have hdual2 : (fs.isTableDual = true) = False := by simp [hdual]
      simp [hmt, hfp, hok, hdual2, hhc]
    · have h2 := (hfhc (if ctx.sessVars.txnPessimistic then { fs with lock := true } else fs)).1
      rw [hhc] at h2
      by_cases hp : ctx.sessVars.txnPessimistic = true
      · simp [hp] at h2 ⊢
        exact h2
      · simp only [Bool.not_eq_true] at hp
        simp [hp] at h2 ⊢
        rw [h2, hshape.1]
  · intro p hnone
    unfold findHandleCol
    simp [hnone, Schema.append, Schema.len, colInfoToColumn]

/-- Fixture: the point plan of the canonical SELECT of `fxUpd` under the
pessimistic context. -/
def fxUpdFs : PointGetPlan :=
  (tryPointGetPlan fxCtxPess (updCanonicalSel fxUpd)).1.getD default

/-- Fixture: `fxUpdFs` with the pessimistic lock applied. -/
def fxUpdFsL : PointGetPlan := { fxUpdFs with lock := true }

/-- Fixture: the ordered assignment list of `fxUpd`. -/
def fxUpdOl : List Assignment := (buildOrderedList fxCtxPess fxUpdFsL fxUpd.list).getD []

/-- Fixture: the point plan of the canonical SELECT of `fxDel` under the
pessimistic context. -/
def fxDelFs : PointGetPlan :=
  (tryPointGetPlan fxCtxPess (delCanonicalSel fxDel)).1.getD default

/-- Fixture: `fxDelFs` with the pessimistic lock applied. -/
def fxDelFsL : PointGetPlan := { fxDelFs with lock := true }

/-- Fixture: the point plan of `select * from t2 where a = 1 and b = 2`
(whose table has no primary-key handle). -/
def fxABPlan : PointGetPlan := (tryPointGetPlan fxCtx fxSelAB).1.getD default

/-- Witness for C7: `update t1 set c2 = 5 where c1 = 7` and
`delete from t1 where c1 = 7` in a pessimistic transaction, and the
extra-handle append on the handle-less `t2` plan. -/
theorem mutation_plans_wrap_point_get_witness :
    (∃ hc fs2, findHandleCol fxUpdFsL = (hc, fs2) ∧
      (tryUpdatePointPlan fxCtxPess fxUpd).1 = some (.updateP
        { selectPlan := fs2, orderedList := fxUpdOl,
          tblColPosInfos := [{ tblID := fs2.tblInfo.id, startPos := 0,
                               endPos := fs2.schema.len, handleOrdinal := hc.index }] }) ∧
      fs2.lock = fxCtxPess.sessVars.txnPessimistic) ∧
    (∃ hc fs2, findHandleCol fxDelFsL = (hc, fs2) ∧
      (tryDeletePointPlan fxCtxPess fxDel).1 = some (.deleteP
        { selectPlan := fs2,
          tblColPosInfos := [{ tblID := fs2.tblInfo.id, startPos := 0,
                               endPos := fs2.schema.len, handleOrdinal := hc.index }] }) ∧
      fs2.lock = fxCtxPess.sessVars.txnPessimistic) ∧
    ((findHandleCol fxABPlan).2.schema = fxABPlan.schema.append (findHandleCol fxABPlan).1 ∧
     (findHandleCol fxABPlan).1.index = fxABPlan.schema.len ∧
     (findHandleCol fxABPlan).1.colName = extraHandleName) :=
  ⟨(mutation_plans_wrap_point_get fxCtxPess).1 fxUpd fxUpdFs
      (tryPointGetPlan fxCtxPess (updCanonicalSel fxUpd)).2 fxUpdOl
      (by decide) (by decide) (by decide) (by decide),
   (mutation_plans_wrap_point_get fxCtxPess).2.1 fxDel fxDelFs
      (tryPointGetPlan fxCtxPess (delCanonicalSel fxDel)).2
      rfl (by decide) (by decide) (by decide),
   (mutation_plans_wrap_point_get fxCtx).2.2 fxABPlan (by decide)⟩

/-- Claim C10 (amended): planning never changes autocommit, the transaction
flags, the current database or the active roles — but its effect on the
session is not empty: a successful `tryPointGetPlan` writes the planned
table into the statement context (`StmtCtx.Tables`), and its effect log
carries no privilege calls of its own. -/
theorem planning_session_frame :
    (∀ (ctx : Ctx) (node : AstNode),
      (ctx.sessVars.applyEff (TryFastPlan ctx node).2).autocommit = ctx.sessVars.autocommit ∧
      (ctx.sessVars.applyEff (TryFastPlan ctx node).2).inTxn = ctx.sessVars.inTxn ∧
      (ctx.sessVars.applyEff (TryFastPlan ctx node).2).txnPessimistic
        = ctx.sessVars.txnPessimistic ∧
      (ctx.sessVars.applyEff (TryFastPlan ctx node).2).currentDB = ctx.sessVars.currentDB ∧
      (ctx.sessVars.applyEff (TryFastPlan ctx node).2).activeRoles
        = ctx.sessVars.activeRoles) ∧
    (∀ (ctx : Ctx) (s : SelectStmt) (p : PointGetPlan) (e : Eff),
      tryPointGetPlan ctx s = (some p, e) →
      e.tables = some [⟨ctx.sessVars.currentDB, p.tblInfo.name.L⟩] ∧ e.privCalls = []) := by
  constructor
  · intro ctx node
    exact ⟨rfl, rfl, rfl, rfl, rfl⟩
  · intro ctx s p e h
    obtain ⟨-, -, -, he, -⟩ := tryPointGetPlan_shape ctx s p e h
    rw [he]
    exact ⟨rfl, rfl⟩

/-- Witness for C10 (amended) at `select * from t1 where c1 = 7`. -/
theorem planning_session_frame_witness :
    ((fxCtx.sessVars.applyEff (TryFastPlan fxCtx (.selectN (fxSelPk (.int 7)))).2).autocommit
        = fxCtx.sessVars.autocommit ∧
     (fxCtx.sessVars.applyEff (TryFastPlan fxCtx (.selectN (fxSelPk (.int 7)))).2).inTxn
        = fxCtx.sessVars.inTxn ∧
     (fxCtx.sessVars.applyEff (TryFastPlan fxCtx (.selectN (fxSelPk (.int 7)))).2).txnPessimistic
        = fxCtx.sessVars.txnPessimistic ∧
     (fxCtx.sessVars.applyEff (TryFastPlan fxCtx (.selectN (fxSelPk (.int 7)))).2).currentDB
        = fxCtx.sessVars.currentDB ∧
     (fxCtx.sessVars.applyEff (TryFastPlan fxCtx (.selectN (fxSelPk (.int 7)))).2).activeRoles
        = fxCtx.sessVars.activeRoles) ∧
    ((tryPointGetPlan fxCtx (fxSelPk (.int 7))).2.tables
        = some [⟨fxCtx.sessVars.currentDB,
            ((tryPointGetPlan fxCtx (fxSelPk (.int 7))).1.getD default).tblInfo.name.L⟩] ∧
     (tryPointGetPlan fxCtx (fxSelPk (.int 7))).2.privCalls = []) :=
  ⟨planning_session_frame.1 fxCtx (.selectN (fxSelPk (.int 7))),
   planning_session_frame.2 fxCtx (fxSelPk (.int 7))
     ((tryPointGetPlan fxCtx (fxSelPk (.int 7))).1.getD default)
     ((tryPointGetPlan fxCtx (fxSelPk (.int 7))).2) (by decide)⟩

/-- The effect of `tryUpdatePointPlan` once the inner point plan is fixed:
the point plan's effect followed by the privilege check's calls. -/
theorem tryUpdatePointPlan_eff (ctx : Ctx) (u : UpdateStmt) (fp : PointGetPlan) (e1 : Eff)
    (hfp : tryPointGetPlan ctx (updCanonicalSel u) = (some fp, e1)) :
    (tryUpdatePointPlan ctx u).2
      = e1.seq (checkFastPlanPrivilege ctx fp [PrivType.select, PrivType.update]).2 := by
  unfold tryUpdatePointPlan
  simp only [updCanonicalSel] at hfp
  simp only [hfp]
  repeat' split
  all_goals first | rfl | simp_all

/-- The effect of `tryDeletePointPlan` once the inner point plan is fixed. -/
theorem tryDeletePointPlan_eff (ctx : Ctx) (d : DeleteStmt) (fp : PointGetPlan) (e1 : Eff)
    (hmt : d.isMultiTable = false)
    (hfp : tryPointGetPlan ctx (delCanonicalSel d) = (some fp, e1)) :
    (tryDeletePointPlan ctx d).2
      = e1.seq (checkFastPlanPrivilege ctx fp [PrivType.select, PrivType.delete]).2 := by
  unfold tryDeletePointPlan
  simp only [delCanonicalSel] at hfp
  simp only [hmt, hfp]
  repeat' split
  all_goals first | rfl | simp_all

/-- The effect of the SELECT arm of `TryFastPlan` when the batch attempt
declines without effects and a point plan was found. -/
theorem tryFastPlanSelect_eff (ctx : Ctx) (s : SelectStmt) (fp : PointGetPlan) (e1 : Eff)
    (hbatch : tryWhereIn2BatchPointGet ctx s = (.nilRes, Eff.empty))
    (hfp : tryPointGetPlan ctx s = (some fp, e1)) :
    (TryFastPlan ctx (.selectN s)).2
      = (Eff.empty.seq e1).seq (checkFastPlanPrivilege ctx fp [PrivType.select]).2 := by
  rw [TryFastPlan]
  simp only [hbatch, hfp]
  repeat' split
  all_goals first | rfl | simp_all

/-- The per-kind verification loop: every recorded call carries the given
roles, database and table and one of the requested kinds; when every kind
is granted, the calls are exactly the requested kinds in order. -/
theorem requestVerificationLoop_spec
    (pm : List String → String → String → PrivType → Bool)
    (roles : List String) (db tblL : String) :
    ∀ types : List PrivType,
      (∀ call ∈ (requestVerificationLoop pm roles db tblL types).2,
        call.roles = roles ∧ call.db = db ∧ call.table = tblL ∧ call.priv ∈ types) ∧
      ((requestVerificationLoop pm roles db tblL types).1 = true →
        (requestVerificationLoop pm roles db tblL types).2
          = types.map fun t => ⟨roles, db, tblL, t⟩) := by
  intro types
  induction types with
  | nil => simp [requestVerificationLoop]
  | cons t ts ih =>
      by_cases hpm : pm roles db tblL t = true
      · constructor
        · intro call hcall
          rw [requestVerificationLoop] at hcall
          simp only [hpm, if_true] at hcall
          rcases List.mem_cons.mp hcall with hcall2 | hcall2
          · simp [hcall2]
          · obtain ⟨ha, hb, hc, hd⟩ := ih.1 call hcall2
            exact ⟨ha, hb, hc, List.mem_cons_of_mem _ hd⟩
        · intro hok
          rw [requestVerificationLoop] at hok ⊢
          simp only [hpm, if_true] at hok ⊢
          simp [List.map_cons, ih.2 hok]
      · constructor
        · intro call hcall
          rw [requestVerificationLoop] at hcall
          simp only [hpm] at hcall
          simp at hcall
          simp [hcall]
        · intro hok
          rw [requestVerificationLoop] at hok
          simp [hpm] at hok

/-- Claim C9 (amended): privilege verification is called with the active
roles, the session's current database and the table, once per required
kind (SELECT; plus UPDATE/DELETE for mutations); any denial makes the
adapter return nil; and a non-batch plan's total call log is exactly that
of its single `checkFastPlanPrivilege` invocation. -/
theorem privilege_check_args_and_denial :
    (∀ (ctx : Ctx) (fp : PointGetPlan) (types : List PrivType)
        (pm : List String → String → String → PrivType → Bool),
      ctx.privManager = some pm →
      (∀ call ∈ (checkFastPlanPrivilege ctx fp types).2.privCalls,
        call.roles = ctx.sessVars.activeRoles ∧ call.db = ctx.sessVars.currentDB ∧
        call.table = fp.tblInfo.name.L ∧ call.priv ∈ types) ∧
      ((checkFastPlanPrivilege ctx fp types).1 = true →
        (checkFastPlanPrivilege ctx fp types).2.privCalls = types.map fun t =>
          ⟨ctx.sessVars.activeRoles, ctx.sessVars.currentDB, fp.tblInfo.name.L, t⟩)) ∧
    (∀ (ctx : Ctx) (s : SelectStmt) (fp : PointGetPlan) (e1 : Eff),
      tryWhereIn2BatchPointGet ctx s = (.nilRes, Eff.empty) →
      tryPointGetPlan ctx s = (some fp, e1) →
      ((checkFastPlanPrivilege ctx fp [PrivType.select]).1 = false →
        (TryFastPlan ctx (.selectN s)).1 = FastRes.nilRes) ∧
      (TryFastPlan ctx (.selectN s)).2.privCalls
        = (checkFastPlanPrivilege ctx fp [PrivType.select]).2.privCalls) ∧
    (∀ (ctx : Ctx) (u : UpdateStmt) (fp : PointGetPlan) (e1 : Eff),
      tryPointGetPlan ctx (updCanonicalSel u) = (some fp, e1) →
      ((checkFastPlanPrivilege ctx fp [PrivType.select, PrivType.update]).1 = false →
        (tryUpdatePointPlan ctx u).1 = none) ∧
      (tryUpdatePointPlan ctx u).2.privCalls
        = (checkFastPlanPrivilege ctx fp [PrivType.select, PrivType.update]).2.privCalls) ∧
    (∀ (ctx : Ctx) (d : DeleteStmt) (fp : PointGetPlan) (e1 : Eff),
      d.isMultiTable = false →
      tryPointGetPlan ctx (delCanonicalSel d) = (some fp, e1) →
      ((checkFastPlanPrivilege ctx fp [PrivType.select, PrivType.delete]).1 = false →
        (tryDeletePointPlan ctx d).1 = none) ∧
      (tryDeletePointPlan ctx d).2.privCalls
        = (checkFastPlanPrivilege ctx fp [PrivType.select, PrivType.delete]).2.privCalls) := by
  refine ⟨?_, ?_, ?_, ?_⟩
  · intro ctx fp types pm hpm
    have hspec := requestVerificationLoop_spec pm ctx.sessVars.activeRoles
      ctx.sessVars.currentDB fp.tblInfo.name.L types
    constructor
    · intro call hcall
      refine hspec.1 call ?_
      simpa [checkFastPlanPrivilege, hpm] using hcall
    · intro hok
      have := hspec.2 (by simpa [checkFastPlanPrivilege, hpm] using hok)
      simpa [checkFastPlanPrivilege, hpm] using this
  · intro ctx s fp e1 hbatch hfp
    obtain ⟨-, -, -, he, -⟩ := tryPointGetPlan_shape ctx s fp e1 hfp
    constructor
    · intro hdeny
      rw [TryFastPlan]
      simp [hbatch, hfp, hdeny]
    · rw [tryFastPlanSelect_eff ctx s fp e1 hbatch hfp, he]
      simp [Eff.seq, Eff.empty]
  · intro ctx u fp e1 hfp
    obtain ⟨-, -, -, he, -⟩ := tryPointGetPlan_shape ctx _ fp e1 hfp
    constructor
    · intro hdeny
      unfold tryUpdatePointPlan
      simp only [updCanonicalSel] at hfp
      simp [hfp, hdeny]
    · rw [tryUpdatePointPlan_eff ctx u fp e1 hfp, he]
      simp [Eff.seq]
  · intro ctx d fp e1 hmt hfp
    obtain ⟨-, -, -, he, -⟩ := tryPointGetPlan_shape ctx _ fp e1 hfp
    constructor
    · intro hdeny
      unfold tryDeletePointPlan
      simp only [delCanonicalSel] at hfp
      simp [hmt, hfp, hdeny]
    · rw [tryDeletePointPlan_eff ctx d fp e1 hmt hfp, he]
      simp [Eff.seq]

/-- Fixture: the point plan of `fxSelPk 7` under the granting privilege
context. -/
def fxSelFp : PointGetPlan := (tryPointGetPlan fxCtxPriv (fxSelPk (.int 7))).1.getD default

/-- Fixture: the point plan of `fxUpd`'s canonical SELECT under the
granting privilege context. -/
def fxUpdFp : PointGetPlan :=
  (tryPointGetPlan fxCtxPriv (updCanonicalSel fxUpd)).1.getD default

/-- Fixture: the point plan of `fxDel`'s canonical SELECT under the
granting privilege context. -/
def fxDelFp : PointGetPlan :=
  (tryPointGetPlan fxCtxPriv (delCanonicalSel fxDel)).1.getD default

/-- Witness for C9 (amended) under a granting privilege manager. -/
theorem privilege_check_args_and_denial_witness :
    ((∀ call ∈ (checkFastPlanPrivilege fxCtxPriv fxSelFp [PrivType.select]).2.privCalls,
        call.roles = fxCtxPriv.sessVars.activeRoles ∧
        call.db = fxCtxPriv.sessVars.currentDB ∧
        call.table = fxSelFp.tblInfo.name.L ∧ call.priv ∈ [PrivType.select]) ∧
     ((checkFastPlanPrivilege fxCtxPriv fxSelFp [PrivType.select]).1 = true →
        (checkFastPlanPrivilege fxCtxPriv fxSelFp [PrivType.select]).2.privCalls
          = [PrivType.select].map fun t => ⟨fxCtxPriv.sessVars.activeRoles,
              fxCtxPriv.sessVars.currentDB, fxSelFp.tblInfo.name.L, t⟩)) ∧
    (((checkFastPlanPrivilege fxCtxPriv fxSelFp [PrivType.select]).1 = false →
        (TryFastPlan fxCtxPriv (.selectN (fxSelPk (.int 7)))).1 = FastRes.nilRes) ∧
     (TryFastPlan fxCtxPriv (.selectN (fxSelPk (.int 7)))).2.privCalls
        = (checkFastPlanPrivilege fxCtxPriv fxSelFp [PrivType.select]).2.privCalls) ∧
    (((checkFastPlanPrivilege fxCtxPriv fxUpdFp [PrivType.select, PrivType.update]).1 = false →
        (tryUpdatePointPlan fxCtxPriv fxUpd).1 = none) ∧
     (tryUpdatePointPlan fxCtxPriv fxUpd).2.privCalls
        = (checkFastPlanPrivilege fxCtxPriv fxUpdFp
            [PrivType.select, PrivType.update]).2.privCalls) ∧
    (((checkFastPlanPrivilege fxCtxPriv fxDelFp [PrivType.select, PrivType.delete]).1 = false →
        (tryDeletePointPlan fxCtxPriv fxDel).1 = none) ∧
     (tryDeletePointPlan fxCtxPriv fxDel).2.privCalls
        = (checkFastPlanPrivilege fxCtxPriv fxDelFp
            [PrivType.select, PrivType.delete]).2.privCalls) :=
  ⟨privilege_check_args_and_denial.1 fxCtxPriv fxSelFp [PrivType.select] fxPmAllow rfl,
   privilege_check_args_and_denial.2.1 fxCtxPriv (fxSelPk (.int 7)) fxSelFp
     (tryPointGetPlan fxCtxPriv (fxSelPk (.int 7))).2
     (batch_nil_of_not_in fxCtxPriv (fxSelPk (.int 7)) (by decide)) (by decide),
   privilege_check_args_and_denial.2.2.1 fxCtxPriv fxUpd fxUpdFp
     (tryPointGetPlan fxCtxPriv (updCanonicalSel fxUpd)).2 (by decide),
   privilege_check_args_and_denial.2.2.2 fxCtxPriv fxDel fxDelFp
     (tryPointGetPlan fxCtxPriv (delCanonicalSel fxDel)).2 rfl (by decide)⟩

/-- Any plan the batch rewrite produces is a union-all node. -/
theorem batch_res_shape (ctx : Ctx) (s : SelectStmt) :
    ∀ (p : Plan) (e : Eff), tryWhereIn2BatchPointGet ctx s = (.planRes p, e) →
      ∃ b sch cs props, p = .unionAll b sch cs props := by
  intro p e h
  rw [tryWhereIn2BatchPointGet] at h
  split at h
  · simp at h
  split at h
  · split at h
    · simp at h
    split at h
    · -- scalar-column candidates
      rename_i inNot inList hguard inExpr hw cn heq
      rcases hl : batchScalarLoop ctx
          { distinct := s.distinct, fromClause := s.fromClause, whereClause := none,
            fields := s.fields, groupBy := false, having := false, windowSpecs := 0,
            orderBy := false, limit := none, lockTp := SelectLockType.selectLockNone }
          (ExprNode.colName cn) inList with ⟨lr, le⟩
      dsimp only [] at h
      rw [hl] at h
      cases lr with
      | okL cs2 ps2 =>
          injection h with h1 h2
          injection h1 with h1
          exact ⟨_, _, _, _, h1.symm⟩
      | failedL => simp at h
      | panicL => simp at h
    · -- row-tuple candidates
      rename_i inNot inList hguard inExpr hw lvals heq
      split at h
      · simp at h
      rcases hl : batchRowLoop ctx
          { distinct := s.distinct, fromClause := s.fromClause, whereClause := none,
            fields := s.fields, groupBy := false, having := false, windowSpecs := 0,
            orderBy := false, limit := none, lockTp := SelectLockType.selectLockNone }
          lvals inList with ⟨lr, le⟩
      dsimp only [] at h
      rw [hl] at h
      cases lr with
      | okL cs2 ps2 =>
          injection h with h1 h2
          injection h1 with h1
          exact ⟨_, _, _, _, h1.symm⟩
      | failedL => simp at h
      | panicL => simp at h
    · simp at h
  · simp at h

/-- `projSchema` ignores the WHERE clause. -/
theorem projSchema_whereUpdate (ctx : Ctx) (s : SelectStmt) (w : Option ExprNode) :
    projSchema ctx { s with whereClause := w } = projSchema ctx s := rfl

/-- A point plan coming out of the SELECT arm of `TryFastPlan` carries the
statement's projected schema. -/
theorem tryFastPlan_select_pointGet_schema (ctx : Ctx) (s : SelectStmt) (p : PointGetPlan)
    (e : Eff) (h : TryFastPlan ctx (.selectN s) = (.planRes (.pointGet p), e)) :
    projSchema ctx s = some p.schema := by
  rw [TryFastPlan] at h
  rcases hb : tryWhereIn2BatchPointGet ctx s with ⟨br, be⟩
  rw [hb] at h
  cases br with
  | planRes pb =>
      obtain ⟨b, sch, cs, props, rfl⟩ := batch_res_shape ctx s pb be hb
      simp at h
  | panicRes => simp at h
  | nilRes =>
      rcases hfp : tryPointGetPlan ctx s with ⟨fpo, e2⟩
      rw [hfp] at h
      dsimp only [] at h
      cases fpo with
      | none => simp at h
      | some fp =>
          have hproj := (tryPointGetPlan_shape ctx s fp e2 hfp).2.2.1
          dsimp only [] at h
          repeat' split at h
          all_goals try simp at h
          all_goals (
            obtain ⟨h1, -⟩ := h
            subst h1
            exact hproj)

/-- The scalar batch loop: on success, one child per candidate, and every
child carries the template's projected schema. -/
theorem batchScalarLoop_children (ctx : Ctx) (reused : SelectStmt) (lhs : ExprNode) :
    ∀ (rows : List ExprNode) (cs : List PointGetPlan) (props : List Nat) (e : Eff),
      batchScalarLoop ctx reused lhs rows = (.okL cs props, e) →
      cs.length = rows.length ∧ ∀ c ∈ cs, projSchema ctx reused = some c.schema := by
  intro rows
  induction rows with
  | nil =>
      intro cs props e h
      rw [batchScalarLoop] at h
      injection h with h1 h2
      injection h1 with h1
      subst h1
      exact ⟨rfl, by simp⟩
  | cons r rest ih =>
      intro cs props e h
      rw [batchScalarLoop] at h
      rcases htf : TryFastPlan ctx
          (.selectN { reused with whereClause := some (.binOp .eq lhs r) }) with ⟨tr, te⟩
      rw [htf] at h
      cases tr with
      | nilRes => simp at h
      | panicRes => simp at h
      | planRes pl =>
          cases pl with
          | pointGet pg =>
              rcases hrec : batchScalarLoop ctx reused lhs rest with ⟨lr, le⟩
              rw [hrec] at h
              cases lr with
              | failedL => simp at h
              | panicL => simp at h
              | okL cs2 ps2 =>
                  injection h with h1 h2
                  injection h1 with h1 hps
                  subst h1
                  obtain ⟨hlen, hall⟩ := ih cs2 ps2 le hrec
                  refine ⟨by simp [hlen], ?_⟩
                  intro c hc
                  rcases List.mem_cons.mp hc with rfl | hc2
                  · have := tryFastPlan_select_pointGet_schema ctx _ c te htf
                    rwa [projSchema_whereUpdate] at this
                  · exact hall c hc2
          | tableDual sch => simp at h
          | unionAll b sch cs2 props2 => simp at h
          | updateP u => simp at h
          | deleteP d => simp at h

/-- The row-tuple batch loop: on success, one child per candidate, and
every child carries the template's projected schema. -/
theorem batchRowLoop_children (ctx : Ctx) (reused : SelectStmt) (lvals : List ExprNode) :
    ∀ (rows : List ExprNode) (cs : List PointGetPlan) (props : List Nat) (e : Eff),
      batchRowLoop ctx reused lvals rows = (.okL cs props, e) →
      cs.length = rows.length ∧ ∀ c ∈ cs, projSchema ctx reused = some c.schema := by
  intro rows
  induction rows with
  | nil =>
      intro cs props e h
      rw [batchRowLoop] at h
      injection h with h1 h2
      injection h1 with h1
      subst h1
      exact ⟨rfl, by simp⟩
  | cons r rest ih =>
      intro cs props e h
      rw [batchRowLoop.eq_def] at h
      cases r with
      | row rvals =>
          dsimp only [] at h
          split at h
          · simp at h
          · cases lvals with
            | nil =>
                cases rvals with
                | nil => simp at h
                | cons r0 rs => simp at h
            | cons l0 ls =>
                cases rvals with
                | nil => simp at h
                | cons r0 rs =>
                    dsimp only [] at h
                    rcases htf : TryFastPlan ctx
                        (.selectN { reused with whereClause := some (mkRowWhere l0 r0 ls rs) })
                        with ⟨tr, te⟩
                    rw [htf] at h
                    cases tr with
                    | nilRes => simp at h
                    | panicRes => simp at h
                    | planRes pl =>
                        cases pl with
                        | pointGet pg =>
                            rcases hrec : batchRowLoop ctx reused (l0 :: ls) rest
                                with ⟨lr, le⟩
                            rw [hrec] at h
                            cases lr with
                            | failedL => simp at h
                            | panicL => simp at h
                            | okL cs2 ps2 =>
                                injection h with h1 h2
                                injection h1 with h1 hps
                                subst h1
                                obtain ⟨hlen, hall⟩ := ih cs2 ps2 le hrec
                                refine ⟨by simp [hlen], ?_⟩
                                intro c hc
                                rcases List.mem_cons.mp hc with rfl | hc2
                                · have := tryFastPlan_select_pointGet_schema ctx _ c te htf
                                  rwa [projSchema_whereUpdate] at this
                                · exact hall c hc2
                        | tableDual sch => simp at h
                        | unionAll b sch cs2 props2 => simp at h
                        | updateP u => simp at h
                        | deleteP d => simp at h
      | binOp op l rr => simp at h
      | colName cn => simp at h
      | value d => simp at h
      | param i d => simp at h
      | patternIn ex n ls2 => simp at h
      | otherExpr => simp at h

/-- Claim C3, amended: every batch-union plan produced from an IN-list
predicate has all of its children sharing an output schema identical to the
union node's schema, and the number of children equals the number of
elements of the IN-list — counting duplicates, not the number of distinct
value tuples. -/
theorem batch_union_children (ctx : Ctx) (s : SelectStmt) (p : Plan) (e : Eff)
    (h : tryWhereIn2BatchPointGet ctx s = (.planRes p, e)) :
    ∃ inExpr inList sch cs props,
      s.whereClause = some (.patternIn inExpr false inList) ∧
      p = .unionAll true sch cs props ∧
      cs.length = inList.length ∧
      ∀ c ∈ cs, c.schema = sch := by
  rw [tryWhereIn2BatchPointGet] at h
  split at h
  · simp at h
  split at h
  · split at h
    · simp at h
    split at h
    · -- scalar-column candidates
      rename_i inNot inList hguard inExpr hw cn heq
      rcases hl : batchScalarLoop ctx
          { distinct := s.distinct, fromClause := s.fromClause, whereClause := none,
            fields := s.fields, groupBy := false, windowSpecs := 0, having := false,
            orderBy := false, limit := none, lockTp := SelectLockType.selectLockNone }
          (ExprNode.colName cn) inList with ⟨lr, le⟩
      dsimp only [] at h
      rw [hl] at h
      cases lr with
      | okL cs2 ps2 =>
          injection h with h1 h2
          injection h1 with h1
          obtain ⟨hlen, hsch⟩ := batchScalarLoop_children ctx _ _ inList cs2 ps2 le hl
          have hnot : inNot = false := by
            cases inNot
            · rfl
            · exact absurd (Or.inl rfl) hguard
          subst hnot
          cases cs2 with
          | nil =>
              exfalso
              apply hguard
              right
              simp only [List.length_nil] at hlen
              omega
          | cons c0 ct =>
              refine ⟨inExpr, inList, c0.schema, c0 :: ct, ps2, hw, h1.symm, hlen, ?_⟩
              intro c hc
              have h0 := hsch c0 (List.mem_cons_self c0 ct)
              have hcs := hsch c hc
              rw [h0] at hcs
              exact (Option.some.injEq _ _ ▸ hcs).symm
      | failedL => simp at h
      | panicL => simp at h
    · -- row-tuple candidates
      rename_i inNot inList hguard inExpr hw lvals heq
      split at h
      · simp at h
      rcases hl : batchRowLoop ctx
          { distinct := s.distinct, fromClause := s.fromClause, whereClause := none,
            fields := s.fields, groupBy := false, windowSpecs := 0, having := false,
            orderBy := false, limit := none, lockTp := SelectLockType.selectLockNone }
          lvals inList with ⟨lr, le⟩
      dsimp only [] at h
      rw [hl] at h
      cases lr with
      | okL cs2 ps2 =>
          injection h with h1 h2
          injection h1 with h1
          obtain ⟨hlen, hsch⟩ := batchRowLoop_children ctx _ lvals inList cs2 ps2 le hl
          have hnot : inNot = false := by
            cases inNot
            · rfl
            · exact absurd (Or.inl rfl) hguard
          subst hnot
          cases cs2 with
          | nil =>
              exfalso
              apply hguard
              right
              simp only [List.length_nil] at hlen
              omega
          | cons c0 ct =>
              refine ⟨inExpr, inList, c0.schema, c0 :: ct, ps2, hw, h1.symm, hlen, ?_⟩
              intro c hc
              have h0 := hsch c0 (List.mem_cons_self c0 ct)
              have hcs := hsch c hc
              rw [h0] at hcs
              exact (Option.some.injEq _ _ ▸ hcs).symm
      | failedL => simp at h
      | panicL => simp at h
    · simp at h
  · simp at h

/-- Witness for C3: `SELECT * FROM t1 WHERE c1 IN (1, 2, 1)` — the union
invariant holds on this concrete batch plan: three children (the duplicate
counted), all sharing the union's schema. -/
theorem batch_union_children_witness :
    ∃ inExpr inList sch cs props,
      (fxSelIn [.value (.int 1), .value (.int 2), .value (.int 1)]).whereClause
          = some (.patternIn inExpr false inList) ∧
      (tryWhereIn2BatchPointGet fxCtx
          (fxSelIn [.value (.int 1), .value (.int 2), .value (.int 1)])).1.planD
          = .unionAll true sch cs props ∧
      cs.length = inList.length ∧
      ∀ c ∈ cs, c.schema = sch :=
  batch_union_children fxCtx (fxSelIn [.value (.int 1), .value (.int 2), .value (.int 1)])
    ((tryWhereIn2BatchPointGet fxCtx
        (fxSelIn [.value (.int 1), .value (.int 2), .value (.int 1)])).1.planD)
    ((tryWhereIn2BatchPointGet fxCtx
        (fxSelIn [.value (.int 1), .value (.int 2), .value (.int 1)])).2)
    (by simp only [fxSelIn, TryFastPlan, tryWhereIn2BatchPointGet, batchScalarLoop,
          batchRowLoop]
        decide)

/-- The unique pair carrying a column name (`find?` view of the
`findInPairs`-then-index access pattern). -/
def lookupPair (n : String) (pairs : List NVPair) : Option NVPair :=
  pairs.find? fun pr => pr.colName = n

/-- The pair actually fetched by `findInPairs` followed by list indexing. -/
def fetchPair (n : String) (pairs : List NVPair) : Option NVPair :=
  (findInPairs n pairs).map fun i => (pairs.get? i).getD default

theorem fetchPair_eq_lookupPair (n : String) (pairs : List NVPair) :
    fetchPair n pairs = lookupPair n pairs := by
  induction pairs with
  | nil => rfl
  | cons p ps ih =>
      simp only [fetchPair, lookupPair, findInPairs, List.find?] at *
      split
      · rename_i hp
        simp [hp]
      · rename_i hp
        have hp2 : (decide (p.colName = n)) = false := by
          simp [hp]
        rw [hp2]
        rw [← ih]
        cases h : findInPairs n ps <;> simp [h]

theorem lookupPair_congr (n : String) (pairs pairs2 : List NVPair)
    (hperm : pairs.Perm pairs2) (hnd : (pairs.map NVPair.colName).Nodup) :
    lookupPair n pairs = lookupPair n pairs2 := by
  unfold lookupPair
  cases h1 : pairs.find? (fun pr => pr.colName = n) with
  | none =>
      rw [List.find?_eq_none] at h1
      symm
      rw [List.find?_eq_none]
      intro x hx
      exact h1 x (hperm.symm.subset hx)
  | some a =>
      have ha : a ∈ pairs := List.mem_of_find?_eq_some h1
      have hpa := List.find?_some h1
      have hsome : (pairs2.find? (fun pr => pr.colName = n)).isSome := by
        rw [List.find?_isSome]
        exact ⟨a, hperm.subset ha, hpa⟩
      obtain ⟨b, hb⟩ := Option.isSome_iff_exists.mp hsome
      have hbmem : b ∈ pairs := hperm.symm.subset (List.mem_of_find?_eq_some hb)
      have hpb := List.find?_some hb
      have hab : a = b := by
        apply List.inj_on_of_nodup_map hnd ha hbmem
        have h1a : a.colName = n := by simpa using hpa
        have h1b : b.colName = n := by simpa using hpb
        rw [h1a, h1b]
      rw [hb, hab]

theorem fetchPair_congr (n : String) (pairs pairs2 : List NVPair)
    (hperm : pairs.Perm pairs2) (hnd : (pairs.map NVPair.colName).Nodup) :
    fetchPair n pairs = fetchPair n pairs2 := by
  rw [fetchPair_eq_lookupPair, fetchPair_eq_lookupPair]
  exact lookupPair_congr n pairs pairs2 hperm hnd

theorem findPKHandleLoop_congr (pairs pairs2 : List NVPair)
    (hperm : pairs.Perm pairs2) (hnd : (pairs.map NVPair.colName).Nodup) :
    ∀ cols, findPKHandleLoop pairs cols = findPKHandleLoop pairs2 cols := by
  intro cols
  induction cols with
  | nil => rfl
  | cons col rest ih =>
      simp only [findPKHandleLoop]
      split
      · have hf := fetchPair_congr col.name.L pairs pairs2 hperm hnd
        cases h1 : findInPairs col.name.L pairs with
        | none =>
            cases h2 : findInPairs col.name.L pairs2 with
            | none => rfl
            | some j => simp [fetchPair, h1, h2] at hf
        | some i =>
            cases h2 : findInPairs col.name.L pairs2 with
            | none => simp [fetchPair, h1, h2] at hf
            | some j =>
                simp only [fetchPair, h1, h2, Option.map] at hf
                injection hf with hf
                dsimp only []
                rw [hf]
      · exact ih

theorem findPKHandle_congr (tbl : TableInfo) (pairs pairs2 : List NVPair)
    (hperm : pairs.Perm pairs2) (hnd : (pairs.map NVPair.colName).Nodup) :
    findPKHandle tbl pairs = findPKHandle tbl pairs2 := by
  unfold findPKHandle
  split
  · rfl
  · exact findPKHandleLoop_congr pairs pairs2 hperm hnd tbl.columns

theorem collectIdxVals_congr (pairs pairs2 : List NVPair)
    (hperm : pairs.Perm pairs2) (hnd : (pairs.map NVPair.colName).Nodup) :
    ∀ cols, collectIdxVals pairs cols = collectIdxVals pairs2 cols := by
  intro cols
  induction cols with
  | nil => rfl
  | cons ic rest ih =>
      simp only [collectIdxVals]
      have hf := fetchPair_congr ic.name.L pairs pairs2 hperm hnd
      cases h1 : findInPairs ic.name.L pairs with
      | none =>
          cases h2 : findInPairs ic.name.L pairs2 with
          | none => rfl
          | some j => simp [fetchPair, h1, h2] at hf
      | some i =>
          cases h2 : findInPairs ic.name.L pairs2 with
          | none => simp [fetchPair, h1, h2] at hf
          | some j =>
              simp only [fetchPair, h1, h2, Option.map] at hf
              injection hf with hf
              dsimp only []
              rw [ih, hf]

theorem getIndexValues_congr (idx : IndexInfo) (pairs pairs2 : List NVPair)
    (hperm : pairs.Perm pairs2) (hnd : (pairs.map NVPair.colName).Nodup) :
    getIndexValues idx pairs = getIndexValues idx pairs2 := by
  unfold getIndexValues
  rw [hperm.length_eq, collectIdxVals_congr pairs pairs2 hperm hnd]

theorem indexLoop_congr (ctx : Ctx) (sel1 sel2 : SelectStmt) (tblName : TableName)
    (tblAlias dbName : CIStr) (tbl : TableInfo) (pairs pairs2 : List NVPair)
    (hperm : pairs.Perm pairs2) (hnd : (pairs.map NVPair.colName).Nodup)
    (hf : sel1.fields = sel2.fields) :
    ∀ idxs, indexLoop ctx sel1 tblName tblAlias dbName tbl pairs idxs
      = indexLoop ctx sel2 tblName tblAlias dbName tbl pairs2 idxs := by
  intro idxs
  induction idxs with
  | nil => rfl
  | cons idx rest ih =>
      simp only [indexLoop]
      rw [getIndexValues_congr idx pairs pairs2 hperm hnd, hf, ih]

theorem indexLoop_skip (ctx : Ctx) (sel : SelectStmt) (tblName : TableName)
    (tblAlias dbName : CIStr) (tbl : TableInfo) (pairs : List NVPair) :
    ∀ pre idxs,
      (∀ j ∈ pre, ¬ (j.unique = true) ∨ j.state ≠ SchemaState.statePublic ∨
          getIndexValues j pairs = none) →
      indexLoop ctx sel tblName tblAlias dbName tbl pairs (pre ++ idxs)
        = indexLoop ctx sel tblName tblAlias dbName tbl pairs idxs := by
  intro pre
  induction pre with
  | nil =>
      intro idxs h
      rfl
  | cons j rest ih =>
      intro idxs h
      have hj := h j (List.mem_cons_self j rest)
      have htail : ∀ k ∈ rest, ¬ (k.unique = true) ∨ k.state ≠ SchemaState.statePublic ∨
          getIndexValues k pairs = none :=
        fun k hk => h k (List.mem_cons_of_mem j hk)
      simp only [List.cons_append, indexLoop]
      by_cases hu : j.unique = true
      · rw [if_neg (by simp [hu])]
        by_cases hs : j.state ≠ SchemaState.statePublic
        · rw [if_pos hs]
          exact ih idxs htail
        · rw [if_neg hs]
          rcases hj with hj | hj | hj
          · exact absurd hu hj
          · exact absurd hj hs
          · rw [hj]
            exact ih idxs htail
      · rw [if_pos (by simp [hu])]
        exact ih idxs htail

theorem collectIdxVals_cover (pairs : List NVPair) :
    ∀ cols, (∀ ic ∈ cols, (lookupPair ic.name.L pairs).isSome) →
      collectIdxVals pairs cols =
        some (cols.map fun ic => ((lookupPair ic.name.L pairs).getD default).value,
              cols.map fun ic => ((lookupPair ic.name.L pairs).getD default).param) := by
  intro cols
  induction cols with
  | nil =>
      intro h
      rfl
  | cons ic rest ih =>
      intro h
      have h0 := h ic (List.mem_cons_self ic rest)
      have hrest : ∀ k ∈ rest, (lookupPair k.name.L pairs).isSome :=
        fun k hk => h k (List.mem_cons_of_mem ic hk)
      simp only [collectIdxVals]
      have hfl := fetchPair_eq_lookupPair ic.name.L pairs
      cases h1 : findInPairs ic.name.L pairs with
      | none =>
          exfalso
          rw [fetchPair, h1] at hfl
          rw [← hfl] at h0
          simp at h0
      | some i =>
          rw [ih hrest]
          dsimp only []
          have hv : (pairs.get? i).getD default = (lookupPair ic.name.L pairs).getD default := by
            rw [← hfl]
            simp [fetchPair, h1]
          rw [hv]
          simp [List.map_cons]

theorem getIndexValues_cover (idx : IndexInfo) (pairs : List NVPair)
    (hlen : idx.columns.length = pairs.length)
    (hpfx : idx.hasPrefixIndex = false)
    (hne : idx.columns ≠ [])
    (hcov : ∀ ic ∈ idx.columns, (lookupPair ic.name.L pairs).isSome) :
    getIndexValues idx pairs =
      some (idx.columns.map fun ic => ((lookupPair ic.name.L pairs).getD default).value,
            idx.columns.map fun ic => ((lookupPair ic.name.L pairs).getD default).param) := by
  unfold getIndexValues
  rw [if_neg (by simp [hlen]), if_neg (by simp [hpfx]),
      collectIdxVals_cover pairs idx.columns hcov]
  dsimp only []
  rw [if_pos]
  simp only [List.length_map, gt_iff_lt]
  exact List.length_pos.mpr hne

theorem cover_of_namePerm (pairs : List NVPair) (cols : List IndexColumn)
    (hnames : (pairs.map NVPair.colName).Perm (cols.map fun c => c.name.L)) :
    ∀ ic ∈ cols, (lookupPair ic.name.L pairs).isSome := by
  intro ic hic
  have hmem : ic.name.L ∈ pairs.map NVPair.colName := by
    rw [hnames.mem_iff]
    exact List.mem_map_of_mem _ hic
  obtain ⟨pr, hpr, hname⟩ := List.mem_map.mp hmem
  rw [lookupPair, List.find?_isSome]
  exact ⟨pr, hpr, by simp [hname]⟩

theorem tryPointGetPlan_cover_eval (ctx : Ctx) (s : SelectStmt) (w : ExprNode)
    (tblName : TableName) (tblAlias : CIStr) (tbl : TableInfo) (idx : IndexInfo)
    (pairs : List NVPair) (pre post : List IndexInfo) (schema : Schema)
    (hhav : s.having = false)
    (hlim : limitDisqualifies s.limit = false)
    (hfrom : getSingleTableNameAndAlias s.fromClause = (some tblName, tblAlias))
    (htbl : tblName.tableInfo = some tbl)
    (hpart : tbl.partition = false)
    (hcols : tbl.columns.any
        (fun col => col.generated || decide (col.state ≠ SchemaState.statePublic)) = false)
    (hw : getNameValuePairs [] tblAlias w = some pairs)
    (hnames : (pairs.map NVPair.colName).Perm (idx.columns.map fun c => c.name.L))
    (hhp : ¬ ((findPKHandle tbl pairs).1.value.isNull = false ∧ pairs.length = 1))
    (hsplit : tbl.indices = pre ++ idx :: post)
    (hpre : ∀ j ∈ pre, ¬ (j.unique = true) ∨ j.state ≠ SchemaState.statePublic ∨
        getIndexValues j pairs = none)
    (hiu : idx.unique = true)
    (hip : idx.state = SchemaState.statePublic)
    (hipfx : idx.hasPrefixIndex = false)
    (hne : idx.columns ≠ [])
    (hschema : buildSchemaFromFields ctx tblName.schema tbl tblAlias s.fields = some schema) :
    tryPointGetPlan ctx { s with whereClause := some w } =
      (some { (newPointGetPlan ctx schema
                (if tblName.schema.L = "" then NewCIStr ctx.sessVars.currentDB
                 else tblName.schema) tbl).1 with
              indexInfo := some idx,
              indexValues :=
                idx.columns.map fun ic => ((lookupPair ic.name.L pairs).getD default).value,
              indexValueParams :=
                idx.columns.map fun ic => ((lookupPair ic.name.L pairs).getD default).param },
       (newPointGetPlan ctx schema
                (if tblName.schema.L = "" then NewCIStr ctx.sessVars.currentDB
                 else tblName.schema) tbl).2) := by
  have hlen : idx.columns.length = pairs.length := by
    have hl2 := hnames.length_eq
    simp only [List.length_map] at hl2
    omega
  have hcov := cover_of_namePerm pairs idx.columns hnames
  unfold tryPointGetPlan
  dsimp only []
  rw [if_neg (by simp [hhav]), if_neg (by simp [hlim]), hfrom]
  dsimp only []
  rw [htbl]
  dsimp only []
  rw [if_neg (by simp [hpart]), if_neg (by rw [hcols]; simp), hw]
  dsimp only []
  rw [if_neg hhp, hsplit,
      indexLoop_skip ctx _ tblName tblAlias _ tbl pairs pre (idx :: post) hpre]
  simp only [indexLoop]
  rw [if_neg (by simp [hiu]), if_neg (by simp [hip]),
      getIndexValues_cover idx pairs hlen hipfx hne hcov]
  dsimp only []
  rw [hschema]

/-- Claim C4: for a unique, public, non-prefix-index `idx` over columns
`(c1,...,cn)`, a WHERE conjunction whose extracted equality pairs cover
exactly the index's column names (any written order, no duplicate names)
yields a point-get plan keyed by `idx` whose `IndexValues` (and parameter
slots) follow the index's declared column order — the i-th value is the one
equated with the i-th index column — and the planning result is identical
for every permutation of the written conjuncts. -/
theorem unique_index_cover_and_permutation (ctx : Ctx) (s : SelectStmt) (w1 w2 : ExprNode)
    (tblName : TableName) (tblAlias : CIStr) (tbl : TableInfo) (idx : IndexInfo)
    (pairs pairs2 : List NVPair) (pre post : List IndexInfo) (schema : Schema)
    (hhav : s.having = false)
    (hlim : limitDisqualifies s.limit = false)
    (hfrom : getSingleTableNameAndAlias s.fromClause = (some tblName, tblAlias))
    (htbl : tblName.tableInfo = some tbl)
    (hpart : tbl.partition = false)
    (hcols : tbl.columns.any
        (fun col => col.generated || decide (col.state ≠ SchemaState.statePublic)) = false)
    (hw1 : getNameValuePairs [] tblAlias w1 = some pairs)
    (hw2 : getNameValuePairs [] tblAlias w2 = some pairs2)
    (hperm : pairs.Perm pairs2)
    (hnd : (pairs.map NVPair.colName).Nodup)
    (hnames : (pairs.map NVPair.colName).Perm (idx.columns.map fun c => c.name.L))
    (hhp : ¬ ((findPKHandle tbl pairs).1.value.isNull = false ∧ pairs.length = 1))
    (hsplit : tbl.indices = pre ++ idx :: post)
    (hpre : ∀ j ∈ pre, ¬ (j.unique = true) ∨ j.state ≠ SchemaState.statePublic ∨
        getIndexValues j pairs = none)
    (hiu : idx.unique = true)
    (hip : idx.state = SchemaState.statePublic)
    (hipfx : idx.hasPrefixIndex = false)
    (hne : idx.columns ≠ [])
    (hschema : buildSchemaFromFields ctx tblName.schema tbl tblAlias s.fields = some schema) :
    tryPointGetPlan ctx { s with whereClause := some w1 } =
      (some { (newPointGetPlan ctx schema
                (if tblName.schema.L = "" then NewCIStr ctx.sessVars.currentDB
                 else tblName.schema) tbl).1 with
              indexInfo := some idx,
              indexValues :=
                idx.columns.map fun ic => ((lookupPair ic.name.L pairs).getD default).value,
              indexValueParams :=
                idx.columns.map fun ic => ((lookupPair ic.name.L pairs).getD default).param },
       (newPointGetPlan ctx schema
                (if tblName.schema.L = "" then NewCIStr ctx.sessVars.currentDB
                 else tblName.schema) tbl).2) ∧
    tryPointGetPlan ctx { s with whereClause := some w1 }
      = tryPointGetPlan ctx { s with whereClause := some w2 } := by
  have h1 := tryPointGetPlan_cover_eval ctx s w1 tblName tblAlias tbl idx pairs pre post
    schema hhav hlim hfrom htbl hpart hcols hw1 hnames hhp hsplit hpre hiu hip hipfx hne
    hschema
  have hnd2 : (pairs2.map NVPair.colName).Nodup :=
    ((hperm.map NVPair.colName).nodup_iff).mp hnd
  have hnames2 : (pairs2.map NVPair.colName).Perm (idx.columns.map fun c => c.name.L) :=
    ((hperm.map NVPair.colName).symm).trans hnames
  have hhp2 : ¬ ((findPKHandle tbl pairs2).1.value.isNull = false ∧ pairs2.length = 1) := by
    rw [← findPKHandle_congr tbl pairs pairs2 hperm hnd, ← hperm.length_eq]
    exact hhp
  have hpre2 : ∀ j ∈ pre, ¬ (j.unique = true) ∨ j.state ≠ SchemaState.statePublic ∨
      getIndexValues j pairs2 = none := by
    intro j hj
    rcases hpre j hj with h | h | h
    · exact Or.inl h
    · exact Or.inr (Or.inl h)
    · refine Or.inr (Or.inr ?_)
      rw [← getIndexValues_congr j pairs pairs2 hperm hnd]
      exact h
  have h2 := tryPointGetPlan_cover_eval ctx s w2 tblName tblAlias tbl idx pairs2 pre post
    schema hhav hlim hfrom htbl hpart hcols hw2 hnames2 hhp2 hsplit hpre2 hiu hip hipfx hne
    hschema
  have hmapv : (idx.columns.map fun ic => ((lookupPair ic.name.L pairs2).getD default).value)
      = idx.columns.map fun ic => ((lookupPair ic.name.L pairs).getD default).value := by
    apply List.map_congr_left
    intro ic hic
    rw [lookupPair_congr ic.name.L pairs pairs2 hperm hnd]
  have hmapp : (idx.columns.map fun ic => ((lookupPair ic.name.L pairs2).getD default).param)
      = idx.columns.map fun ic => ((lookupPair ic.name.L pairs).getD default).param := by
    apply List.map_congr_left
    intro ic hic
    rw [lookupPair_congr ic.name.L pairs pairs2 hperm hnd]
  refine ⟨h1, ?_⟩
  rw [h1, h2, hmapv, hmapp]

/-- Fixture: `a = 1 AND b = 2`. -/
def fxWAB : ExprNode := .binOp .logicAnd (whereEqD "a" (.int 1)) (whereEqD "b" (.int 2))

/-- Fixture: the permuted conjunction `b = 2 AND a = 1`. -/
def fxWBA : ExprNode := .binOp .logicAnd (whereEqD "b" (.int 2)) (whereEqD "a" (.int 1))

/-- Fixture: the pairs extracted from `a = 1 AND b = 2`. -/
def fxPairsAB : List NVPair := [⟨"a", .int 1, none⟩, ⟨"b", .int 2, none⟩]

/-- Fixture: the pairs extracted from `b = 2 AND a = 1`. -/
def fxPairsBA : List NVPair := [⟨"b", .int 2, none⟩, ⟨"a", .int 1, none⟩]

/-- Fixture: the star-expansion schema of `t2`. -/
def fxSchemaT2 : Schema :=
  (buildSchemaFromFields fxCtx fxT2Name.schema fxT2 (NewCIStr "t2") fxSelAB.fields).getD
    default

/-- Witness for C4: `select * from t2 where a = 1 and b = 2` against the
unique index `(a, b)` — the plan is keyed by the index with values in the
index's column order, and writing `b = 2 and a = 1` yields the identical
result. -/
theorem unique_index_cover_and_permutation_witness :
    (tryPointGetPlan fxCtx { fxSelAB with whereClause := some fxWAB } =
      (some { (newPointGetPlan fxCtx fxSchemaT2
                (if fxT2Name.schema.L = "" then NewCIStr fxCtx.sessVars.currentDB
                 else fxT2Name.schema) fxT2).1 with
              indexInfo := some fxIdxAB,
              indexValues :=
                fxIdxAB.columns.map fun ic =>
                  ((lookupPair ic.name.L fxPairsAB).getD default).value,
              indexValueParams :=
                fxIdxAB.columns.map fun ic =>
                  ((lookupPair ic.name.L fxPairsAB).getD default).param },
       (newPointGetPlan fxCtx fxSchemaT2
                (if fxT2Name.schema.L = "" then NewCIStr fxCtx.sessVars.currentDB
                 else fxT2Name.schema) fxT2).2)) ∧
    tryPointGetPlan fxCtx { fxSelAB with whereClause := some fxWAB }
      = tryPointGetPlan fxCtx { fxSelAB with whereClause := some fxWBA } :=
  unique_index_cover_and_permutation fxCtx fxSelAB fxWAB fxWBA fxT2Name (NewCIStr "t2")
    fxT2 fxIdxAB fxPairsAB fxPairsBA [] [] fxSchemaT2
    (by decide) (by decide) (by decide) (by decide) (by decide) (by decide)
    (by decide) (by decide) (by decide) (by decide) (by decide) (by decide)
    (by decide) (by simp) (by decide) (by decide) (by decide) (by decide)
    (by decide)

end PointGetSpec










